import Mathlib

/-!
Shallow embedding of the dtree decision-analysis program
(src/dtree/probability.py and src/dtree/dtree.py).

Python dicts are modelled as insertion-ordered association lists with
overwrite-in-place assignment; float arithmetic is modelled exactly over the
rationals; lookups that can raise KeyError are Option-valued; the
round(x, 4) calls are modelled as round-half-to-even at 4 decimals.
-/

namespace DTree

set_option maxRecDepth 1000000

/-- A Python dict with string keys and rational values (a categorical
distribution or the flat parameter store), as an insertion-ordered
association list. -/
abbrev Dist := List (String × ℚ)

/-- The probability bundle: dict from uncertainty name to its distribution. -/
abbrev Bundle := List (String × Dist)

/-- The configuration mapping.  Scalar-valued keys are kept in one association
list; the MA_inputweights key holds the 3-tuple of market-adoption input
weights (public_perception, reg, technology) and is kept as its own field. -/
structure Config where
  entries : List (String × ℚ)
  MA_inputweights : ℚ × ℚ × ℚ

/-- Python dict lookup d[k]; none models a KeyError. -/
def dget? {κ α : Type} [DecidableEq κ] : List (κ × α) → κ → Option α
  | [], _ => none
  | (k', v) :: rest, k => if k' = k then some v else dget? rest k

/-- Python dict assignment d[k] = v: overwrite in place when the key exists,
append at the end otherwise. -/
def dinsert {κ α : Type} [DecidableEq κ] (d : List (κ × α)) (k : κ) (v : α) :
    List (κ × α) :=
  if d.any (fun e => decide (e.1 = k)) then
    d.map (fun e => if e.1 = k then (k, v) else e)
  else d ++ [(k, v)]

/-- Python dict.get(k, dflt). -/
def dgetD {κ α : Type} [DecidableEq κ] (d : List (κ × α)) (k : κ) (dflt : α) : α :=
  (dget? d k).getD dflt

/-- Sum of the values of a distribution (dict.values() summed). -/
def dsum (d : Dist) : ℚ := (d.map (fun kv => kv.2)).sum

/-- Fuel-driven worker for Python str.split(sep): scan left to right, cutting
at each non-overlapping occurrence of sep. -/
def splitAux (sep : List Char) : ℕ → List Char → List Char → List (List Char)
  | _, acc, [] => [acc.reverse]
  | 0, acc, rest => [acc.reverse ++ rest]
  | f + 1, acc, c :: cs =>
    if sep.isPrefixOf (c :: cs) && !sep.isEmpty then
      acc.reverse :: splitAux sep f [] ((c :: cs).drop sep.length)
    else
      splitAux sep f (c :: acc) cs

/-- Python s.split(sep) for a non-empty separator. -/
def pySplit (s sep : String) : List String :=
  (splitAux sep.data (s.data.length + 1) [] s.data).map String.mk

/-- Python substring membership test (sub in s). -/
def pyIn (sub s : String) : Bool :=
  sub.data.isEmpty || decide (2 ≤ (pySplit s sub).length)

/-- probability.get_probas: collect the categorical distribution for name out
of the flat config; a key contributes when it contains name as a substring and
contains the separator, and the outcome label is split("__")[1]. -/
def get_probas (name : String) (config : Config) : Dist :=
  config.entries.foldl
    (fun p kv =>
      if pyIn name kv.1 && pyIn "__" kv.1 then
        dinsert p ((pySplit kv.1 "__").getD 1 "") kv.2
      else p)
    []

/-- probability.coin_base: 5-level base return distribution of one coin from
the 3-level stock-market distribution and the coin's magnitude split. -/
def coin_base (coin : String) (p_stock : Dist) (config : Config) : Option Dist := do
  let mag1 ← dget? config.entries (coin ++ "__mag1")
  let magx := 1 - mag1
  let pl ← dget? p_stock "low"
  let pn ← dget? p_stock "neutral"
  let ph ← dget? p_stock "high"
  pure [("low_low", magx * pl),
        ("low", mag1 * pl + (1/2) * magx * pn),
        ("neutral", mag1 * pn),
        ("high", mag1 * ph + (1/2) * magx * pn),
        ("high_high", magx * ph)]

/-- Indicator-weighted contribution of one driver level. -/
def indw (w : ℚ) (x target : ℕ) : ℚ := if x = target then w else 0

/-- probability.market_adaption_cond_probas, one row: the conditional
market-adoption mass at the given target level for a driver-level combination
(public_perception, reg, technology). -/
def maCond (w : ℚ × ℚ × ℚ) (row : ℕ × ℕ × ℕ) (target : ℕ) : ℚ :=
  indw w.1 row.1 target + indw w.2.1 row.2.1 target + indw w.2.2 row.2.2 target

/-- The 27 driver-level combinations, in itertools.product order. -/
def maRows : List (ℕ × ℕ × ℕ) :=
  [0, 1, 2].flatMap fun i =>
    [0, 1, 2].flatMap fun j =>
      [0, 1, 2].map fun k => (i, j, k)

/-- Level-index to outcome-label mapping used by market_adaption_t1. -/
def cat : ℕ → String
  | 0 => "negative"
  | 1 => "neutral"
  | _ => "positive"

/-- Python round to an integer, half to even, computed on the numerator and
denominator (f is the floor of x and rem the remainder of the numerator). -/
def roundHalfEven (x : ℚ) : ℤ :=
  let n := x.num
  let d := (x.den : ℤ)
  let f := Int.fdiv n d
  let rem := n - f * d
  if 2 * rem < d then f
  else if d < 2 * rem then f + 1
  else if f % 2 = 0 then f else f + 1

/-- Python round(x, 4). -/
def round4 (x : ℚ) : ℚ := mkRat (roundHalfEven (x * 10000)) 10000

/-- probability.market_adaption_t1: marginalize the 27 driver combinations,
rounding each marginal to 4 decimals. -/
def market_adaption_t1 (probas : Bundle) (config : Config) : Option Dist := do
  let w := config.MA_inputweights
  let pp ← dget? probas "public_perception"
  let reg ← dget? probas "reg"
  let tech ← dget? probas "technology"
  let joints ← maRows.mapM (fun row => do
    let a ← dget? pp (cat row.1)
    let b ← dget? reg (cat row.2.1)
    let c ← dget? tech (cat row.2.2)
    pure (a * b * c, row))
  let jlow := (joints.map fun jc => jc.1 * maCond w jc.2 0).sum
  let jneutral := (joints.map fun jc => jc.1 * maCond w jc.2 1).sum
  let jhigh := (joints.map fun jc => jc.1 * maCond w jc.2 2).sum
  pure [("low", round4 jlow), ("neutral", round4 jneutral), ("high", round4 jhigh)]

/-- probability.market_adaption_t2: carry-forward copy of the t1 distribution. -/
def market_adaption_t2 (ma_t1_probas : Dist) : Dist := ma_t1_probas

/-- probability.update_base_proba: convolve a coin's 5-level base distribution
(positionally, via dict.values()) with the 3-level market-adoption
distribution. -/
def update_base_proba (coin_base_probas : Dist) (ma_probas : Dist) : Option Dist := do
  let mh ← dget? ma_probas "high"
  let mn ← dget? ma_probas "neutral"
  let ml ← dget? ma_probas "low"
  match coin_base_probas.map (fun kv => kv.2) with
  | b0 :: b1 :: b2 :: b3 :: b4 :: _ =>
    pure [("low_low", mn * b0 + ml * b0 + ml * b1),
          ("low", mn * b1 + ml * b2 + mh * b0),
          ("neutral", mn * b2 + ml * b3 + mh * b1),
          ("high", mn * b3 + ml * b4 + mh * b2),
          ("high_high", mn * b4 + mh * b3 + mh * b4)]
  | _ => none

/-- One iteration of the per-coin loop inside calculate_probabilities. -/
def coinStep (config : Config) (custom_p : Bundle) (p : Bundle) (coin : String) :
    Option Bundle := do
  let st1 ← dget? p "stock_t1"
  let base1 ← coin_base coin st1 config
  let ma1 ← dget? p "ma_t1"
  let d1 ← update_base_proba base1 ma1
  let p := dinsert p (coin ++ "_t1") (dgetD custom_p (coin ++ "_t1") d1)
  let st2 ← dget? p "stock_t2"
  let base2 ← coin_base coin st2 config
  let ma2 ← dget? p "ma_t2"
  let d2 ← update_base_proba base2 ma2
  pure (dinsert p (coin ++ "_t2") (dgetD custom_p (coin ++ "_t2") d2))

/-- probability.calculate_probabilities: build the full bundle; any name in
custom_p is used verbatim, but every derivation still runs (Python dict.get
evaluates its default eagerly). -/
def calculate_probabilities (config : Config) (custom_p : Bundle) : Option Bundle := do
  let p := dinsert [] "stock_t1" (dgetD custom_p "stock_t1" (get_probas "STOCKMARKET_T1" config))
  let p := dinsert p "stock_t2" (dgetD custom_p "stock_t2" (get_probas "STOCKMARKET_T2" config))
  let p := dinsert p "reg" (dgetD custom_p "reg" (get_probas "REG" config))
  let p := dinsert p "public_perception"
    (dgetD custom_p "public_perception" (get_probas "PUBLIC_PERCEPTION" config))
  let p := dinsert p "technology" (dgetD custom_p "technology" (get_probas "TECHNOLOGY" config))
  let ma1 ← market_adaption_t1 p config
  let p := dinsert p "ma_t1" (dgetD custom_p "ma_t1" ma1)
  let ma1cur ← dget? p "ma_t1"
  let p := dinsert p "ma_t2" (dgetD custom_p "ma_t2" (market_adaption_t2 ma1cur))
  let p ← coinStep config custom_p p "BTC"
  let p ← coinStep config custom_p p "ETH"
  coinStep config custom_p p "SOL"

/-- The degenerate single-outcome distribution used for the CASH choice. -/
def inflationDist : Dist := [("inflation", 1)]

/-- Distribution backing one epoch's choice: CASH gets the degenerate
inflation distribution, any other label is looked up in the bundle. -/
def epochDist (p : Bundle) (choice : String) (sfx : String) : Option Dist :=
  if choice = "CASH" then pure inflationDist else dget? p (choice ++ sfx)

/-- Key of one scenario in get_return's dict: (return-level pair label,
u-value, absolute return, total return). -/
abbrev SKey := String × ℚ × ℚ × ℚ

/-- The scenario dict built by get_return. -/
abbrev Scen := List (SKey × ℚ)

/-- Descending-by-u-value order used to sort scenarios. -/
def relU (a b : SKey × ℚ) : Prop := b.1.2.1 ≤ a.1.2.1

instance : DecidableRel relU := fun a b => inferInstanceAs (Decidable (_ ≤ _))

/-- Descending-by-value order used to rank decisions. -/
def relCe {β : Type} (a b : β × ℚ) : Prop := b.2 ≤ a.2

instance {β : Type} : DecidableRel (relCe (β := β)) :=
  fun a b => inferInstanceAs (Decidable (_ ≤ _))

instance : DecidableEq (ℚ × Scen) := instDecidableEqProd

/-- dtree.get_return: certain equivalent of a deal given a decision pair, plus
the scenario breakdown. -/
def get_return (decision : String × String) (p : Bundle) (config : Config)
    (ux : (ℚ → ℚ) × (ℚ → ℚ)) : Option (ℚ × Scen) := do
  let p1 ← epochDist p decision.1 "_t1"
  let p2 ← epochDist p decision.2 "_t2"
  let raw ← (p1.flatMap fun e1 => p2.map fun e2 => (e1, e2)).mapM (fun ee => do
    let r1 ← dget? config.entries ee.1.1
    let r2 ← dget? config.entries ee.2.1
    let amt ← dget? config.entries "investment_amount"
    let total_return := r1 * r2
    let absolute_return := (total_return - 1) * amt
    let u_value := ux.1 absolute_return
    pure ((ee.1.1 ++ "|" ++ ee.2.1, u_value, absolute_return, total_return),
          ee.1.2 * ee.2.2))
  let probas := raw.foldl (fun d kv => dinsert d kv.1 kv.2) ([] : Scen)
  let probas := List.insertionSort relU probas
  let ev := (probas.map fun kv => kv.1.2.1 * kv.2).sum
  pure (ux.2 ev, probas)

/-- All 16 decision pairs, in itertools.product order. -/
def optionsList : List (String × String) :=
  ["BTC", "ETH", "SOL", "CASH"].flatMap fun a =>
    ["BTC", "ETH", "SOL", "CASH"].map fun b => (a, b)

/-- dtree.get_all_returns: evaluate every decision pair and rank them in
descending order of certain equivalent (the detailed per-scenario strings are
pure reporting and are not modelled). -/
def get_all_returns (probabilities : Bundle) (config : Config)
    (ux : (ℚ → ℚ) × (ℚ → ℚ)) : Option (List ((String × String) × ℚ)) := do
  let rows ← optionsList.mapM (fun d => do
    let cep ← get_return d probabilities config ux
    pure (d, cep.1))
  pure (List.insertionSort relCe rows)

/-- dtree.get_deal_value: the top-ranked decision and its value. -/
def get_deal_value (probabilities : Bundle) (config : Config)
    (ux : (ℚ → ℚ) × (ℚ → ℚ)) : Option ((String × String) × ℚ) := do
  let df ← get_all_returns probabilities config ux
  df.head?

/-- Result record of dtree.clairvoyance. -/
structure CvResult where
  deal_value_free_cv : ℚ
  cv_value_with_delta : ℚ
  best_action_values : List (String × ((String × String) × ℚ))
  deriving DecidableEq, Repr

/-- dtree.clairvoyance: free-clairvoyance deal value on X and its delta to the
baseline best deal value. -/
def clairvoyance (X : String) (probabilities : Bundle) (config : Config)
    (ux : (ℚ → ℚ) × (ℚ → ℚ)) : Option CvResult := do
  let pX ← dget? probabilities X
  let p_X_base := pX.map fun kv => (kv.1, (0 : ℚ))
  let bav ← p_X_base.foldlM (fun acc kv => do
      let forced := dinsert p_X_base kv.1 1
      let hyp ← calculate_probabilities config (dinsert [] X forced)
      let av ← get_deal_value hyp config ux
      pure (dinsert acc kv.1 av))
    ([] : List (String × ((String × String) × ℚ)))
  let terms ← p_X_base.mapM (fun kv => do
      let pXagain ← dget? probabilities X
      let w ← dget? pXagain kv.1
      let av ← dget? bav kv.1
      pure (w * av.2))
  let deal_value_with_cv := terms.sum
  let base ← get_deal_value probabilities config ux
  pure ⟨deal_value_with_cv, deal_value_with_cv - base.2, bav⟩

/-- The identity utility pair: plain expected-value evaluation (the identity
instance the spec's utility-transform section singles out). -/
def idUx : (ℚ → ℚ) × (ℚ → ℚ) := (id, id)

/-! ### Spec-side definitions and helper shapes -/

/-- The 13 uncertainty names of the bundle, in the order the code inserts
them. -/
def keys13 : List String :=
  ["stock_t1", "stock_t2", "reg", "public_perception", "technology",
   "ma_t1", "ma_t2", "BTC_t1", "BTC_t2", "ETH_t1", "ETH_t2", "SOL_t1", "SOL_t2"]

/-- A 3-level driver distribution in the standard label order. -/
def dist3 (a b c : ℚ) : Dist := [("negative", a), ("neutral", b), ("positive", c)]

/-- A 3-level stock-market (or market-adoption input) distribution. -/
def stock3 (a b c : ℚ) : Dist := [("low", a), ("neutral", b), ("high", c)]

/-- A 3-level market-adoption distribution. -/
def ma3 (l n h : ℚ) : Dist := [("low", l), ("neutral", n), ("high", h)]

/-- A 5-level return distribution in the standard label order. -/
def dist5 (a b c d e : ℚ) : Dist :=
  [("low_low", a), ("low", b), ("neutral", c), ("high", d), ("high_high", e)]

/-- Spec wording for the forcing override: probability 1 on the chosen
outcome and 0 on every other outcome of the distribution. -/
def forceTo (d : Dist) (o : String) : Dist :=
  d.map fun kv => (kv.1, if kv.1 = o then (1 : ℚ) else 0)

/-- Join a list of segments with a separator (inverse of a split). -/
def joinSep (sep : String) : List String → String
  | [] => ""
  | [x] => x
  | x :: xs => x ++ sep ++ joinSep sep xs

/-- Spec wording for the outcome label: the portion of the key after the
first occurrence of the separator. -/
def afterFirstSep (k : String) : String := joinSep "__" ((pySplit k "__").drop 1)

/-- The mapping the claim about get_probas describes: for each key containing
name and the separator, associate the portion after the first separator with
its value. -/
def claimGetProbas (name : String) (config : Config) : Dist :=
  config.entries.foldl
    (fun p kv =>
      if pyIn name kv.1 && pyIn "__" kv.1 then dinsert p (afterFirstSep kv.1) kv.2
      else p)
    []

/-- Selection of a per-choice quantity: one value per coin plus the CASH
value. -/
def chooseQ (vB vE vS vC : ℚ) (c : String) : ℚ :=
  if c = "BTC" then vB else if c = "ETH" then vE else if c = "SOL" then vS else vC

/-- The effective per-coin return distribution: the coin base distribution
(from magnitude split m and stock distribution (a, b, c)) convolved with the
market-adoption distribution (l, n, h); closed form of
update_base_proba (coin_base ...). -/
def coinDist (m a b c l n h : ℚ) : Dist :=
  let x0 := (1 - m) * a
  let x1 := m * a + (1/2) * (1 - m) * b
  let x2 := m * b
  let x3 := m * c + (1/2) * (1 - m) * b
  let x4 := (1 - m) * c
  [("low_low", n * x0 + l * x0 + l * x1),
   ("low", n * x1 + l * x2 + h * x0),
   ("neutral", n * x2 + l * x3 + h * x1),
   ("high", n * x3 + l * x4 + h * x2),
   ("high_high", n * x4 + h * x3 + h * x4)]

/-- Expected return multiplier of a 5-level distribution under the 5 return
levels. -/
def mu5 (a0 a1 a2 a3 a4 rll rl rn rh rhh : ℚ) : ℚ :=
  a0 * rll + a1 * rl + a2 * rn + a3 * rh + a4 * rhh

/-- Value of a 3-level driver distribution at a level index. -/
def driverVal (a b c : ℚ) : ℕ → ℚ
  | 0 => a
  | 1 => b
  | _ => c

/-- The return-level table as a function: multiplier looked up per outcome
label. -/
def retFn (rll rl rn rh rhh rInf : ℚ) : String → ℚ := fun k =>
  if k = "low_low" then rll else if k = "low" then rl else if k = "neutral" then rn
  else if k = "high" then rh else if k = "high_high" then rhh
  else if k = "inflation" then rInf else 0

/-- The nine uncertainty names whose forcing rebuilds the bundle within a
single epoch. -/
def nineVars : List String :=
  ["stock_t1", "stock_t2", "ma_t2", "BTC_t1", "ETH_t1", "SOL_t1",
   "BTC_t2", "ETH_t2", "SOL_t2"]

/-! ### Concrete inputs used by counterexamples and witnesses -/

/-- Well-formed configuration with anti-correlated epochs: the t1 stock market
is surely low, the t2 stock market surely high, the return table rewards the
extreme buckets, market adoption is an even low/high split driven by public
perception alone. -/
def cfgA : Config :=
  ⟨[("STOCKMARKET_T1__low", 1), ("STOCKMARKET_T1__neutral", 0), ("STOCKMARKET_T1__high", 0),
    ("STOCKMARKET_T2__low", 0), ("STOCKMARKET_T2__neutral", 0), ("STOCKMARKET_T2__high", 1),
    ("REG__negative", 1/5), ("REG__neutral", 1/2), ("REG__positive", 3/10),
    ("PUBLIC_PERCEPTION__negative", 1/2), ("PUBLIC_PERCEPTION__neutral", 0),
    ("PUBLIC_PERCEPTION__positive", 1/2),
    ("TECHNOLOGY__negative", 1/5), ("TECHNOLOGY__neutral", 1/2), ("TECHNOLOGY__positive", 3/10),
    ("BTC__mag1", 1/2), ("ETH__mag1", 1/2), ("SOL__mag1", 1/2),
    ("low_low", 2), ("low", 21/20), ("neutral", 21/20), ("high", 21/20), ("high_high", 2),
    ("inflation", 1), ("investment_amount", 10000)],
   (1, 0, 0)⟩

/-- Well-formed configuration whose public-perception distribution makes all
three market-adoption marginals round down at the 4th decimal. -/
def cfgB : Config :=
  ⟨[("STOCKMARKET_T1__low", 3/10), ("STOCKMARKET_T1__neutral", 2/5), ("STOCKMARKET_T1__high", 3/10),
    ("STOCKMARKET_T2__low", 3/10), ("STOCKMARKET_T2__neutral", 2/5), ("STOCKMARKET_T2__high", 3/10),
    ("REG__negative", 1/5), ("REG__neutral", 1/2), ("REG__positive", 3/10),
    ("PUBLIC_PERCEPTION__negative", 5557/50000), ("PUBLIC_PERCEPTION__neutral", 11111/25000),
    ("PUBLIC_PERCEPTION__positive", 22221/50000),
    ("TECHNOLOGY__negative", 1/5), ("TECHNOLOGY__neutral", 1/2), ("TECHNOLOGY__positive", 3/10),
    ("BTC__mag1", 7/10), ("ETH__mag1", 1/2), ("SOL__mag1", 3/5),
    ("low_low", 1/2), ("low", 4/5), ("neutral", 1), ("high", 13/10), ("high_high", 9/5),
    ("inflation", 1), ("investment_amount", 10000)],
   (1, 0, 0)⟩

/-- Malformed configuration: the STOCKMARKET_T1 group sums to 2, everything
else as in cfgB. -/
def cfgBad : Config :=
  ⟨[("STOCKMARKET_T1__low", 3/5), ("STOCKMARKET_T1__neutral", 4/5), ("STOCKMARKET_T1__high", 3/5),
    ("STOCKMARKET_T2__low", 3/10), ("STOCKMARKET_T2__neutral", 2/5), ("STOCKMARKET_T2__high", 3/10),
    ("REG__negative", 1/5), ("REG__neutral", 1/2), ("REG__positive", 3/10),
    ("PUBLIC_PERCEPTION__negative", 1/5), ("PUBLIC_PERCEPTION__neutral", 1/2),
    ("PUBLIC_PERCEPTION__positive", 3/10),
    ("TECHNOLOGY__negative", 1/5), ("TECHNOLOGY__neutral", 1/2), ("TECHNOLOGY__positive", 3/10),
    ("BTC__mag1", 7/10), ("ETH__mag1", 1/2), ("SOL__mag1", 3/5),
    ("low_low", 1/2), ("low", 4/5), ("neutral", 1), ("high", 13/10), ("high_high", 9/5),
    ("inflation", 1), ("investment_amount", 10000)],
   (1, 0, 0)⟩

/-- Configuration mapping the inflation return level to 2 instead of 1. -/
def cfgI2 : Config := ⟨[("inflation", 2), ("investment_amount", 10000)], (0, 0, 0)⟩

/-- Configuration with a key containing the separator twice. -/
def cfgTwoSep : Config := ⟨[("N__a__b", 5)], (0, 0, 0)⟩

/-- Configuration with no separator-bearing key at all. -/
def cfgNoGroup : Config := ⟨[("foo", 1)], (0, 0, 0)⟩

/-! ### Helper lemmas -/

instance {β : Type} : IsTotal (β × ℚ) relCe := ⟨fun a b => le_total b.2 a.2⟩

instance {β : Type} : IsTrans (β × ℚ) relCe := ⟨fun _ _ _ h1 h2 => le_trans h2 h1⟩

theorem mapM_eq_map_of {α β : Type} {f : α → Option β} {g : α → β} :
    ∀ {l : List α}, (∀ a ∈ l, f a = some (g a)) → l.mapM f = some (l.map g) := by
  intro l
  induction l with
  | nil => intro _; rfl
  | cons a t ih =>
    intro h
    rw [List.mapM_cons, h a (List.mem_cons_self a t), ih (fun b hb => h b (List.mem_cons_of_mem a hb))]
    rfl

theorem dinsert_append {κ α : Type} [DecidableEq κ] {d : List (κ × α)} {k : κ} {v : α}
    (h : ∀ e ∈ d, e.1 ≠ k) : dinsert d k v = d ++ [(k, v)] := by
  rw [dinsert, if_neg]
  simp only [List.any_eq_true, decide_eq_true_eq, not_exists, not_and]
  intro e he
  exact fun hk => h e he hk

theorem foldl_dinsert_eq {κ α : Type} [DecidableEq κ] :
    ∀ (l acc : List (κ × α)), ((acc ++ l).map Prod.fst).Nodup →
      l.foldl (fun d kv => dinsert d kv.1 kv.2) acc = acc ++ l := by
  intro l
  induction l with
  | nil => intro acc _; simp
  | cons a t ih =>
    intro acc hnd
    have hnd' : (acc.map Prod.fst ++ a.1 :: t.map Prod.fst).Nodup := by
      simpa using hnd
    have hdisj := (List.nodup_append.mp hnd').2.2
    have hne : ∀ e ∈ acc, e.1 ≠ a.1 := by
      intro e he hk
      exact hdisj (List.mem_map_of_mem Prod.fst he) (hk ▸ List.mem_cons_self _ _)
    have step : dinsert acc a.1 a.2 = acc ++ [a] := by
      have := dinsert_append hne (v := a.2)
      simpa using this
    simp only [List.foldl_cons, step]
    have hnd2 : (((acc ++ [a]) ++ t).map Prod.fst).Nodup := by
      have : (acc ++ [a]) ++ t = acc ++ a :: t := by simp
      rw [this]
      exact hnd
    rw [ih (acc ++ [a]) hnd2]
    simp

theorem sorted_head_max {β : Type} {l : List (β × ℚ)} {x : β × ℚ}
    (hx : (List.insertionSort relCe l).head? = some x) :
    x ∈ l ∧ ∀ y ∈ l, y.2 ≤ x.2 := by
  have hperm := List.perm_insertionSort relCe l
  have hsorted := List.sorted_insertionSort relCe l
  cases hs : List.insertionSort relCe l with
  | nil => rw [hs] at hx; cases hx
  | cons a t =>
    rw [hs] at hx hperm hsorted
    have hxa : x = a := by
      rw [List.head?_cons] at hx
      exact (Option.some_injective _ hx).symm
    subst hxa
    constructor
    · exact hperm.mem_iff.mp (List.mem_cons_self _ _)
    · intro y hy
      have hy' : y ∈ x :: t := hperm.mem_iff.mpr hy
      rcases List.mem_cons.mp hy' with h | h
      · exact h ▸ le_refl _
      · exact List.rel_of_sorted_cons hsorted y h

theorem insertionSort_ne_nil {β : Type} {l : List (β × ℚ)} (h : l ≠ []) :
    ∃ x, (List.insertionSort relCe l).head? = some x := by
  cases hs : List.insertionSort relCe l with
  | nil =>
    have hperm := List.perm_insertionSort relCe l
    rw [hs] at hperm
    exact absurd hperm.symm.eq_nil h
  | cons a t => exact ⟨a, rfl⟩

theorem roundHalfEven_bounds (x : ℚ) :
    |((roundHalfEven x : ℤ) : ℚ) - x| ≤ 1/2 := by
  simp only [roundHalfEven]
  have hd : (0 : ℤ) < (x.den : ℤ) := Int.natCast_pos.mpr x.pos
  have hfd : Int.fdiv x.num (x.den : ℤ) = x.num / (x.den : ℤ) :=
    Int.fdiv_eq_ediv _ (le_of_lt hd)
  set f := Int.fdiv x.num (x.den : ℤ) with hf
  set rem := x.num - f * (x.den : ℤ) with hrem
  have hrem' : rem = x.num % (x.den : ℤ) := by
    rw [hrem, hfd, Int.emod_def, mul_comm]
  have h0 : (0 : ℤ) ≤ rem := hrem' ▸ Int.emod_nonneg _ (ne_of_gt hd)
  have h1 : rem < (x.den : ℤ) := hrem' ▸ Int.emod_lt_of_pos _ hd
  have hdq : (0 : ℚ) < ((x.den : ℕ) : ℚ) := by exact_mod_cast hd
  have hxd : (x.num : ℚ) = x * ((x.den : ℕ) : ℚ) := by
    have h := Rat.num_div_den x
    rw [div_eq_iff (ne_of_gt hdq)] at h
    exact h
  have hkey : ((f : ℚ) - x) * ((x.den : ℕ) : ℚ) = -((rem : ℚ)) := by
    have hremq : ((rem : ℤ) : ℚ) = (x.num : ℚ) - (f : ℚ) * ((x.den : ℕ) : ℚ) := by
      rw [hrem]; push_cast; ring
    rw [sub_mul, ← hxd]
    linarith [hremq]
  have hkey2 : (((f + 1 : ℤ)) : ℚ) - x = ((f : ℚ) - x) + 1 := by push_cast; ring
  have h0q : (0 : ℚ) ≤ (rem : ℚ) := by exact_mod_cast h0
  have h1q : (rem : ℚ) < ((x.den : ℕ) : ℚ) := by exact_mod_cast h1
  split
  next hc1 =>
    have hc1q : 2 * (rem : ℚ) < ((x.den : ℕ) : ℚ) := by exact_mod_cast hc1
    rw [abs_le]
    constructor <;> nlinarith [hkey, hdq, h0q, h1q, hc1q]
  next hc1 =>
    have hc1q : ((x.den : ℕ) : ℚ) ≤ 2 * (rem : ℚ) := by exact_mod_cast not_lt.mp hc1
    split
    next hc2 =>
      have hc2q : ((x.den : ℕ) : ℚ) < 2 * (rem : ℚ) := by exact_mod_cast hc2
      rw [hkey2, abs_le]
      constructor <;> nlinarith [hkey, hdq, h0q, h1q, hc2q]
    next hc2 =>
      have hc2q : 2 * (rem : ℚ) ≤ ((x.den : ℕ) : ℚ) := by exact_mod_cast not_lt.mp hc2
      split
      next =>
        rw [abs_le]
        constructor <;> nlinarith [hkey, hdq, h0q, h1q, hc1q, hc2q]
      next =>
        rw [hkey2, abs_le]
        constructor <;> nlinarith [hkey, hdq, h0q, h1q, hc1q, hc2q]

theorem roundHalfEven_nonneg {x : ℚ} (h : 0 ≤ x) : 0 ≤ roundHalfEven x := by
  rw [roundHalfEven]
  have hd : (0 : ℤ) < (x.den : ℤ) := Int.natCast_pos.mpr x.pos
  have hn : (0 : ℤ) ≤ x.num := Rat.num_nonneg.mpr h
  have hfd : Int.fdiv x.num (x.den : ℤ) = x.num / (x.den : ℤ) :=
    Int.fdiv_eq_ediv _ (le_of_lt hd)
  have hf : (0 : ℤ) ≤ Int.fdiv x.num (x.den : ℤ) := by
    rw [hfd]; exact Int.ediv_nonneg hn (le_of_lt hd)
  split
  · exact hf
  · split
    · omega
    · split
      · exact hf
      · omega

theorem round4_sub_le (x : ℚ) : |round4 x - x| ≤ 1/20000 := by
  have h := roundHalfEven_bounds (x * 10000)
  have h4 : round4 x = ((roundHalfEven (x * 10000) : ℤ) : ℚ) / 10000 := by
    rw [round4, Rat.mkRat_eq_divInt, Rat.divInt_eq_div]
    norm_num
  rw [h4]
  have : ((roundHalfEven (x * 10000) : ℤ) : ℚ) / 10000 - x
      = (((roundHalfEven (x * 10000) : ℤ) : ℚ) - x * 10000) / 10000 := by ring
  rw [this, abs_div]
  rw [show |(10000 : ℚ)| = 10000 by norm_num]
  rw [div_le_iff (by norm_num : (0:ℚ) < 10000)]
  linarith

theorem round4_nonneg {x : ℚ} (h : 0 ≤ x) : 0 ≤ round4 x := by
  have h4 : round4 x = ((roundHalfEven (x * 10000) : ℤ) : ℚ) / 10000 := by
    rw [round4, Rat.mkRat_eq_divInt, Rat.divInt_eq_div]
    norm_num
  rw [h4]
  have := roundHalfEven_nonneg (x := x * 10000) (by linarith)
  positivity

theorem get_return_eq {c1 c2 : String} {B : Bundle} {cfg : Config}
    {ux : (ℚ → ℚ) × (ℚ → ℚ)} {q1 q2 : Dist} {A : ℚ} {R : String → ℚ}
    (h1 : epochDist B c1 "_t1" = some q1)
    (h2 : epochDist B c2 "_t2" = some q2)
    (hA : dget? cfg.entries "investment_amount" = some A)
    (hR1 : ∀ kv ∈ q1, dget? cfg.entries kv.1 = some (R kv.1))
    (hR2 : ∀ kv ∈ q2, dget? cfg.entries kv.1 = some (R kv.1))
    (hnd : (q1.flatMap fun e1 => q2.map fun e2 => e1.1 ++ "|" ++ e2.1).Nodup) :
    (get_return (c1, c2) B cfg ux).map Prod.fst =
      some (ux.2 ((q1.flatMap fun e1 => q2.map fun e2 =>
        ux.1 ((R e1.1 * R e2.1 - 1) * A) * (e1.2 * e2.2)).sum)) := by
  have hbody : ∀ ee ∈ (q1.flatMap fun e1 => q2.map fun e2 => (e1, e2)),
      (do
        let r1 ← dget? cfg.entries ee.1.1
        let r2 ← dget? cfg.entries ee.2.1
        let amt ← dget? cfg.entries "investment_amount"
        let total_return := r1 * r2
        let absolute_return := (total_return - 1) * amt
        let u_value := ux.1 absolute_return
        pure ((ee.1.1 ++ "|" ++ ee.2.1, u_value, absolute_return, total_return),
              ee.1.2 * ee.2.2) : Option (SKey × ℚ)) =
      some ((ee.1.1 ++ "|" ++ ee.2.1, ux.1 ((R ee.1.1 * R ee.2.1 - 1) * A),
             (R ee.1.1 * R ee.2.1 - 1) * A, R ee.1.1 * R ee.2.1), ee.1.2 * ee.2.2) := by
    intro ee hee
    rw [List.mem_flatMap] at hee
    obtain ⟨e1, he1, hee2⟩ := hee
    rw [List.mem_map] at hee2
    obtain ⟨e2, he2, heq⟩ := hee2
    subst heq
    rw [hR1 e1 he1, hR2 e2 he2, hA]
    rfl
  set pairs := q1.flatMap fun e1 => q2.map fun e2 => (e1, e2) with hpairs
  set g : (String × ℚ) × (String × ℚ) → SKey × ℚ := fun ee =>
    ((ee.1.1 ++ "|" ++ ee.2.1, ux.1 ((R ee.1.1 * R ee.2.1 - 1) * A),
      (R ee.1.1 * R ee.2.1 - 1) * A, R ee.1.1 * R ee.2.1), ee.1.2 * ee.2.2) with hg
  have hmapM := mapM_eq_map_of (g := g) hbody
  have hraw_keys : ((pairs.map g).map Prod.fst).Nodup := by
    apply List.Nodup.of_map (f := fun k : SKey => k.1)
    have : ((pairs.map g).map Prod.fst).map (fun k : SKey => k.1) =
        q1.flatMap fun e1 => q2.map fun e2 => e1.1 ++ "|" ++ e2.1 := by
      rw [List.map_map, List.map_map, hpairs]
      rw [List.map_flatMap]
      congr 1
      funext e1
      rw [List.map_map]
      rfl
    rw [this]
    exact hnd
  have hfold : (pairs.map g).foldl (fun d kv => dinsert d kv.1 kv.2) ([] : Scen)
      = pairs.map g := by
    have := foldl_dinsert_eq (pairs.map g) []
    simpa using this hraw_keys
  rw [get_return]
  simp only [h1, h2, Option.bind_eq_bind, Option.some_bind]
  simp only [Option.bind_eq_bind] at hmapM
  rw [← hpairs, hmapM]
  simp only [Option.some_bind, hfold]
  have hsum : ((List.insertionSort relU (pairs.map g)).map fun kv => kv.1.2.1 * kv.2).sum
      = ((pairs.map g).map fun kv => kv.1.2.1 * kv.2).sum :=
    List.Perm.sum_eq (List.Perm.map _ (List.perm_insertionSort relU (pairs.map g)))
  simp only [Option.pure_def, Option.map_some']
  rw [hsum, List.map_map, hpairs, List.map_flatMap]
  simp only [List.map_map]
  rfl

set_option maxHeartbeats 2000000 in
theorem ma_t1_eq {P : Bundle} {cfg : Config} {p0 p1 p2 g0 g1 g2 u0 u1 u2 w1 w2 w3 : ℚ}
    (hw : cfg.MA_inputweights = (w1, w2, w3))
    (hpp : dget? P "public_perception" = some (dist3 p0 p1 p2))
    (hreg : dget? P "reg" = some (dist3 g0 g1 g2))
    (htech : dget? P "technology" = some (dist3 u0 u1 u2))
    (hp : p0 + p1 + p2 = 1) (hg : g0 + g1 + g2 = 1) (hu : u0 + u1 + u2 = 1) :
    market_adaption_t1 P cfg = some (ma3
      (round4 (w1 * p0 + w2 * g0 + w3 * u0))
      (round4 (w1 * p1 + w2 * g1 + w3 * u1))
      (round4 (w1 * p2 + w2 * g2 + w3 * u2))) := by
  have e1 : p2 = 1 - p0 - p1 := by linarith
  have e2 : g2 = 1 - g0 - g1 := by linarith
  have e3 : u2 = 1 - u0 - u1 := by linarith
  subst e1 e2 e3
  have hbody : ∀ row ∈ maRows, (do
      let a ← dget? (dist3 p0 p1 (1 - p0 - p1)) (cat row.1)
      let b ← dget? (dist3 g0 g1 (1 - g0 - g1)) (cat row.2.1)
      let c ← dget? (dist3 u0 u1 (1 - u0 - u1)) (cat row.2.2)
      pure (a * b * c, row) : Option (ℚ × (ℕ × ℕ × ℕ))) = some
        (driverVal p0 p1 (1 - p0 - p1) row.1 * driverVal g0 g1 (1 - g0 - g1) row.2.1 *
         driverVal u0 u1 (1 - u0 - u1) row.2.2, row) := by
    intro row hrow
    fin_cases hrow <;> rfl
  rw [market_adaption_t1]
  simp only [hw, hpp, hreg, htech, Option.bind_eq_bind, Option.some_bind]
  have hm := mapM_eq_map_of hbody
  simp only [Option.bind_eq_bind] at hm
  rw [hm]
  simp only [Option.some_bind, maRows, driverVal, maCond, indw, cat,
    List.flatMap_cons, List.flatMap_nil, List.map_cons, List.map_nil,
    List.append_nil, List.cons_append, List.nil_append, List.sum_cons, List.sum_nil]
  norm_num [ma3]
  refine ⟨?_, ?_, ?_⟩ <;> (congr 1; ring)

theorem coin_base_eq {coin : String} {cfg : Config} {m a b c : ℚ}
    (hm : dget? cfg.entries (coin ++ "__mag1") = some m) :
    coin_base coin (stock3 a b c) cfg = some (dist5 ((1 - m) * a)
      (m * a + (1/2) * (1 - m) * b) (m * b) (m * c + (1/2) * (1 - m) * b)
      ((1 - m) * c)) := by
  rw [coin_base]
  simp [hm, stock3, dist5, dget?]

theorem update_eq {b0 b1 b2 b3 b4 l n h : ℚ} :
    update_base_proba (dist5 b0 b1 b2 b3 b4) (ma3 l n h) = some
      [("low_low", n * b0 + l * b0 + l * b1),
       ("low", n * b1 + l * b2 + h * b0),
       ("neutral", n * b2 + l * b3 + h * b1),
       ("high", n * b3 + l * b4 + h * b2),
       ("high_high", n * b4 + h * b3 + h * b4)] := by
  rw [update_base_proba]
  simp [dist5, ma3, dget?]

set_option maxHeartbeats 2000000 in
theorem bundle_eq {cfg : Config} {custom : Bundle}
    {s1 s2 rg pp tc maDer maD ma2D : Dist}
    {baseB1 baseB2 baseE1 baseE2 baseS1 baseS2 : Dist}
    {uB1 uB2 uE1 uE2 uS1 uS2 dB1 dB2 dE1 dE2 dS1 dS2 : Dist}
    (hs1 : dgetD custom "stock_t1" (get_probas "STOCKMARKET_T1" cfg) = s1)
    (hs2 : dgetD custom "stock_t2" (get_probas "STOCKMARKET_T2" cfg) = s2)
    (hrg : dgetD custom "reg" (get_probas "REG" cfg) = rg)
    (hpp : dgetD custom "public_perception" (get_probas "PUBLIC_PERCEPTION" cfg) = pp)
    (htc : dgetD custom "technology" (get_probas "TECHNOLOGY" cfg) = tc)
    (hma : market_adaption_t1 [("stock_t1", s1), ("stock_t2", s2), ("reg", rg),
      ("public_perception", pp), ("technology", tc)] cfg = some maDer)
    (hmaD : dgetD custom "ma_t1" maDer = maD)
    (hma2 : dgetD custom "ma_t2" maD = ma2D)
    (hbB1 : coin_base "BTC" s1 cfg = some baseB1)
    (huB1 : update_base_proba baseB1 maD = some uB1)
    (hdB1 : dgetD custom "BTC_t1" uB1 = dB1)
    (hbB2 : coin_base "BTC" s2 cfg = some baseB2)
    (huB2 : update_base_proba baseB2 ma2D = some uB2)
    (hdB2 : dgetD custom "BTC_t2" uB2 = dB2)
    (hbE1 : coin_base "ETH" s1 cfg = some baseE1)
    (huE1 : update_base_proba baseE1 maD = some uE1)
    (hdE1 : dgetD custom "ETH_t1" uE1 = dE1)
    (hbE2 : coin_base "ETH" s2 cfg = some baseE2)
    (huE2 : update_base_proba baseE2 ma2D = some uE2)
    (hdE2 : dgetD custom "ETH_t2" uE2 = dE2)
    (hbS1 : coin_base "SOL" s1 cfg = some baseS1)
    (huS1 : update_base_proba baseS1 maD = some uS1)
    (hdS1 : dgetD custom "SOL_t1" uS1 = dS1)
    (hbS2 : coin_base "SOL" s2 cfg = some baseS2)
    (huS2 : update_base_proba baseS2 ma2D = some uS2)
    (hdS2 : dgetD custom "SOL_t2" uS2 = dS2) :
    calculate_probabilities cfg custom = some
      [("stock_t1", s1), ("stock_t2", s2), ("reg", rg), ("public_perception", pp),
       ("technology", tc), ("ma_t1", maD), ("ma_t2", ma2D),
       ("BTC_t1", dB1), ("BTC_t2", dB2), ("ETH_t1", dE1), ("ETH_t2", dE2),
       ("SOL_t1", dS1), ("SOL_t2", dS2)] := by
  rw [calculate_probabilities]
  simp only [hs1, hs2, hrg, hpp, htc]
  rw [show dinsert (dinsert (dinsert (dinsert (dinsert ([] : Bundle) "stock_t1" s1) "stock_t2" s2) "reg" rg) "public_perception" pp) "technology" tc = [("stock_t1", s1), ("stock_t2", s2), ("reg", rg), ("public_perception", pp), ("technology", tc)] from rfl]
  rw [hma]
  simp only [Option.bind_eq_bind, Option.some_bind, hmaD]
  rw [show dinsert [("stock_t1", s1), ("stock_t2", s2), ("reg", rg), ("public_perception", pp), ("technology", tc)] "ma_t1" maD = [("stock_t1", s1), ("stock_t2", s2), ("reg", rg), ("public_perception", pp), ("technology", tc), ("ma_t1", maD)] from rfl]
  rw [show dget? [("stock_t1", s1), ("stock_t2", s2), ("reg", rg), ("public_perception", pp), ("technology", tc), ("ma_t1", maD)] "ma_t1" = some maD from rfl]
  simp only [Option.some_bind, market_adaption_t2, hma2]
  rw [show dinsert [("stock_t1", s1), ("stock_t2", s2), ("reg", rg), ("public_perception", pp), ("technology", tc), ("ma_t1", maD)] "ma_t2" ma2D = [("stock_t1", s1), ("stock_t2", s2), ("reg", rg), ("public_perception", pp), ("technology", tc), ("ma_t1", maD), ("ma_t2", ma2D)] from rfl]
  rw [coinStep]
  simp only [show ("BTC" ++ "_t1" : String) = "BTC_t1" from rfl, show ("BTC" ++ "_t2" : String) = "BTC_t2" from rfl]
  rw [show dget? [("stock_t1", s1), ("stock_t2", s2), ("reg", rg), ("public_perception", pp), ("technology", tc), ("ma_t1", maD), ("ma_t2", ma2D)] "stock_t1" = some s1 from rfl]
  simp only [Option.bind_eq_bind, Option.some_bind]
  rw [hbB1]
  simp only [Option.some_bind]
  rw [show dget? [("stock_t1", s1), ("stock_t2", s2), ("reg", rg), ("public_perception", pp), ("technology", tc), ("ma_t1", maD), ("ma_t2", ma2D)] "ma_t1" = some maD from rfl]
  simp only [Option.some_bind]
  rw [huB1]
  simp only [Option.some_bind, hdB1]
  rw [show dinsert [("stock_t1", s1), ("stock_t2", s2), ("reg", rg), ("public_perception", pp), ("technology", tc), ("ma_t1", maD), ("ma_t2", ma2D)] "BTC_t1" dB1 = [("stock_t1", s1), ("stock_t2", s2), ("reg", rg), ("public_perception", pp), ("technology", tc), ("ma_t1", maD), ("ma_t2", ma2D), ("BTC_t1", dB1)] from rfl]
  rw [show dget? [("stock_t1", s1), ("stock_t2", s2), ("reg", rg), ("public_perception", pp), ("technology", tc), ("ma_t1", maD), ("ma_t2", ma2D), ("BTC_t1", dB1)] "stock_t2" = some s2 from rfl]
  simp only [Option.some_bind]
  rw [hbB2]
  simp only [Option.some_bind]
  rw [show dget? [("stock_t1", s1), ("stock_t2", s2), ("reg", rg), ("public_perception", pp), ("technology", tc), ("ma_t1", maD), ("ma_t2", ma2D), ("BTC_t1", dB1)] "ma_t2" = some ma2D from rfl]
  simp only [Option.some_bind]
  rw [huB2]
  simp only [Option.some_bind, hdB2]
  rw [show dinsert [("stock_t1", s1), ("stock_t2", s2), ("reg", rg), ("public_perception", pp), ("technology", tc), ("ma_t1", maD), ("ma_t2", ma2D), ("BTC_t1", dB1)] "BTC_t2" dB2 = [("stock_t1", s1), ("stock_t2", s2), ("reg", rg), ("public_perception", pp), ("technology", tc), ("ma_t1", maD), ("ma_t2", ma2D), ("BTC_t1", dB1), ("BTC_t2", dB2)] from rfl]
  simp only [Option.pure_def, Option.some_bind]
  rw [coinStep]
  simp only [show ("ETH" ++ "_t1" : String) = "ETH_t1" from rfl, show ("ETH" ++ "_t2" : String) = "ETH_t2" from rfl]
  rw [show dget? [("stock_t1", s1), ("stock_t2", s2), ("reg", rg), ("public_perception", pp), ("technology", tc), ("ma_t1", maD), ("ma_t2", ma2D), ("BTC_t1", dB1), ("BTC_t2", dB2)] "stock_t1" = some s1 from rfl]
  simp only [Option.bind_eq_bind, Option.some_bind]
  rw [hbE1]
  simp only [Option.some_bind]
  rw [show dget? [("stock_t1", s1), ("stock_t2", s2), ("reg", rg), ("public_perception", pp), ("technology", tc), ("ma_t1", maD), ("ma_t2", ma2D), ("BTC_t1", dB1), ("BTC_t2", dB2)] "ma_t1" = some maD from rfl]
  simp only [Option.some_bind]
  rw [huE1]
  simp only [Option.some_bind, hdE1]
  rw [show dinsert [("stock_t1", s1), ("stock_t2", s2), ("reg", rg), ("public_perception", pp), ("technology", tc), ("ma_t1", maD), ("ma_t2", ma2D), ("BTC_t1", dB1), ("BTC_t2", dB2)] "ETH_t1" dE1 = [("stock_t1", s1), ("stock_t2", s2), ("reg", rg), ("public_perception", pp), ("technology", tc), ("ma_t1", maD), ("ma_t2", ma2D), ("BTC_t1", dB1), ("BTC_t2", dB2), ("ETH_t1", dE1)] from rfl]
  rw [show dget? [("stock_t1", s1), ("stock_t2", s2), ("reg", rg), ("public_perception", pp), ("technology", tc), ("ma_t1", maD), ("ma_t2", ma2D), ("BTC_t1", dB1), ("BTC_t2", dB2), ("ETH_t1", dE1)] "stock_t2" = some s2 from rfl]
  simp only [Option.some_bind]
  rw [hbE2]
  simp only [Option.some_bind]
  rw [show dget? [("stock_t1", s1), ("stock_t2", s2), ("reg", rg), ("public_perception", pp), ("technology", tc), ("ma_t1", maD), ("ma_t2", ma2D), ("BTC_t1", dB1), ("BTC_t2", dB2), ("ETH_t1", dE1)] "ma_t2" = some ma2D from rfl]
  simp only [Option.some_bind]
  rw [huE2]
  simp only [Option.some_bind, hdE2]
  rw [show dinsert [("stock_t1", s1), ("stock_t2", s2), ("reg", rg), ("public_perception", pp), ("technology", tc), ("ma_t1", maD), ("ma_t2", ma2D), ("BTC_t1", dB1), ("BTC_t2", dB2), ("ETH_t1", dE1)] "ETH_t2" dE2 = [("stock_t1", s1), ("stock_t2", s2), ("reg", rg), ("public_perception", pp), ("technology", tc), ("ma_t1", maD), ("ma_t2", ma2D), ("BTC_t1", dB1), ("BTC_t2", dB2), ("ETH_t1", dE1), ("ETH_t2", dE2)] from rfl]
  simp only [Option.pure_def, Option.some_bind]
  rw [coinStep]
  simp only [show ("SOL" ++ "_t1" : String) = "SOL_t1" from rfl, show ("SOL" ++ "_t2" : String) = "SOL_t2" from rfl]
  rw [show dget? [("stock_t1", s1), ("stock_t2", s2), ("reg", rg), ("public_perception", pp), ("technology", tc), ("ma_t1", maD), ("ma_t2", ma2D), ("BTC_t1", dB1), ("BTC_t2", dB2), ("ETH_t1", dE1), ("ETH_t2", dE2)] "stock_t1" = some s1 from rfl]
  simp only [Option.bind_eq_bind, Option.some_bind]
  rw [hbS1]
  simp only [Option.some_bind]
  rw [show dget? [("stock_t1", s1), ("stock_t2", s2), ("reg", rg), ("public_perception", pp), ("technology", tc), ("ma_t1", maD), ("ma_t2", ma2D), ("BTC_t1", dB1), ("BTC_t2", dB2), ("ETH_t1", dE1), ("ETH_t2", dE2)] "ma_t1" = some maD from rfl]
  simp only [Option.some_bind]
  rw [huS1]
  simp only [Option.some_bind, hdS1]
  rw [show dinsert [("stock_t1", s1), ("stock_t2", s2), ("reg", rg), ("public_perception", pp), ("technology", tc), ("ma_t1", maD), ("ma_t2", ma2D), ("BTC_t1", dB1), ("BTC_t2", dB2), ("ETH_t1", dE1), ("ETH_t2", dE2)] "SOL_t1" dS1 = [("stock_t1", s1), ("stock_t2", s2), ("reg", rg), ("public_perception", pp), ("technology", tc), ("ma_t1", maD), ("ma_t2", ma2D), ("BTC_t1", dB1), ("BTC_t2", dB2), ("ETH_t1", dE1), ("ETH_t2", dE2), ("SOL_t1", dS1)] from rfl]
  rw [show dget? [("stock_t1", s1), ("stock_t2", s2), ("reg", rg), ("public_perception", pp), ("technology", tc), ("ma_t1", maD), ("ma_t2", ma2D), ("BTC_t1", dB1), ("BTC_t2", dB2), ("ETH_t1", dE1), ("ETH_t2", dE2), ("SOL_t1", dS1)] "stock_t2" = some s2 from rfl]
  simp only [Option.some_bind]
  rw [hbS2]
  simp only [Option.some_bind]
  rw [show dget? [("stock_t1", s1), ("stock_t2", s2), ("reg", rg), ("public_perception", pp), ("technology", tc), ("ma_t1", maD), ("ma_t2", ma2D), ("BTC_t1", dB1), ("BTC_t2", dB2), ("ETH_t1", dE1), ("ETH_t2", dE2), ("SOL_t1", dS1)] "ma_t2" = some ma2D from rfl]
  simp only [Option.some_bind]
  rw [huS2]
  simp only [Option.some_bind, hdS2]
  rw [show dinsert [("stock_t1", s1), ("stock_t2", s2), ("reg", rg), ("public_perception", pp), ("technology", tc), ("ma_t1", maD), ("ma_t2", ma2D), ("BTC_t1", dB1), ("BTC_t2", dB2), ("ETH_t1", dE1), ("ETH_t2", dE2), ("SOL_t1", dS1)] "SOL_t2" dS2 = [("stock_t1", s1), ("stock_t2", s2), ("reg", rg), ("public_perception", pp), ("technology", tc), ("ma_t1", maD), ("ma_t2", ma2D), ("BTC_t1", dB1), ("BTC_t2", dB2), ("ETH_t1", dE1), ("ETH_t2", dE2), ("SOL_t1", dS1), ("SOL_t2", dS2)] from rfl]
  simp only [Option.pure_def]

theorem evalSum55 (a0 a1 a2 a3 a4 b0 b1 b2 b3 b4 rll rl rn rh rhh rInf A : ℚ) :
    ((dist5 a0 a1 a2 a3 a4).flatMap fun e1 => (dist5 b0 b1 b2 b3 b4).map fun e2 =>
      idUx.1 ((retFn rll rl rn rh rhh rInf e1.1 * retFn rll rl rn rh rhh rInf e2.1 - 1) * A)
        * (e1.2 * e2.2)).sum
      = A * (mu5 a0 a1 a2 a3 a4 rll rl rn rh rhh * mu5 b0 b1 b2 b3 b4 rll rl rn rh rhh
          - (a0 + a1 + a2 + a3 + a4) * (b0 + b1 + b2 + b3 + b4)) := by
  simp [dist5, retFn, mu5, idUx]
  ring

theorem evalSum51 (a0 a1 a2 a3 a4 rll rl rn rh rhh rInf A : ℚ) :
    ((dist5 a0 a1 a2 a3 a4).flatMap fun e1 => inflationDist.map fun e2 =>
      idUx.1 ((retFn rll rl rn rh rhh rInf e1.1 * retFn rll rl rn rh rhh rInf e2.1 - 1) * A)
        * (e1.2 * e2.2)).sum
      = A * (mu5 a0 a1 a2 a3 a4 rll rl rn rh rhh * rInf - (a0 + a1 + a2 + a3 + a4)) := by
  simp [dist5, inflationDist, retFn, mu5, idUx]
  ring

theorem evalSum15 (b0 b1 b2 b3 b4 rll rl rn rh rhh rInf A : ℚ) :
    (inflationDist.flatMap fun e1 => (dist5 b0 b1 b2 b3 b4).map fun e2 =>
      idUx.1 ((retFn rll rl rn rh rhh rInf e1.1 * retFn rll rl rn rh rhh rInf e2.1 - 1) * A)
        * (e1.2 * e2.2)).sum
      = A * (rInf * mu5 b0 b1 b2 b3 b4 rll rl rn rh rhh - (b0 + b1 + b2 + b3 + b4)) := by
  simp [dist5, inflationDist, retFn, mu5, idUx]
  ring

theorem evalSum11 (rll rl rn rh rhh rInf A : ℚ) :
    (inflationDist.flatMap fun e1 => inflationDist.map fun e2 =>
      idUx.1 ((retFn rll rl rn rh rhh rInf e1.1 * retFn rll rl rn rh rhh rInf e2.1 - 1) * A)
        * (e1.2 * e2.2)).sum
      = A * (rInf * rInf - 1) := by
  simp [inflationDist, retFn, idUx]
  ring

theorem nodup55 (x0 x1 x2 x3 x4 y0 y1 y2 y3 y4 : ℚ) :
    ((dist5 x0 x1 x2 x3 x4).flatMap fun e1 => (dist5 y0 y1 y2 y3 y4).map fun e2 =>
      e1.1 ++ "|" ++ e2.1).Nodup := by
  simp only [dist5, List.flatMap_cons, List.flatMap_nil, List.map_cons, List.map_nil,
    List.append_nil, List.cons_append, List.nil_append]
  decide

theorem nodup51 (x0 x1 x2 x3 x4 : ℚ) :
    ((dist5 x0 x1 x2 x3 x4).flatMap fun e1 => inflationDist.map fun e2 =>
      e1.1 ++ "|" ++ e2.1).Nodup := by
  simp only [dist5, inflationDist, List.flatMap_cons, List.flatMap_nil, List.map_cons,
    List.map_nil, List.append_nil, List.cons_append, List.nil_append]
  decide

theorem nodup15 (y0 y1 y2 y3 y4 : ℚ) :
    (inflationDist.flatMap fun e1 => (dist5 y0 y1 y2 y3 y4).map fun e2 =>
      e1.1 ++ "|" ++ e2.1).Nodup := by
  simp only [dist5, inflationDist, List.flatMap_cons, List.flatMap_nil, List.map_cons,
    List.map_nil, List.append_nil, List.cons_append, List.nil_append]
  decide

theorem nodup11 :
    (inflationDist.flatMap fun e1 => inflationDist.map fun e2 =>
      e1.1 ++ "|" ++ e2.1).Nodup := by
  decide

theorem rows_eval {B : Bundle} {cfg : Config}
    {aB0 aB1 aB2 aB3 aB4 aE0 aE1 aE2 aE3 aE4 aS0 aS1 aS2 aS3 aS4 : ℚ}
    {bB0 bB1 bB2 bB3 bB4 bE0 bE1 bE2 bE3 bE4 bS0 bS1 bS2 bS3 bS4 : ℚ}
    {rll rl rn rh rhh rInf A : ℚ}
    (hB1 : dget? B "BTC_t1" = some (dist5 aB0 aB1 aB2 aB3 aB4))
    (hE1 : dget? B "ETH_t1" = some (dist5 aE0 aE1 aE2 aE3 aE4))
    (hS1 : dget? B "SOL_t1" = some (dist5 aS0 aS1 aS2 aS3 aS4))
    (hB2 : dget? B "BTC_t2" = some (dist5 bB0 bB1 bB2 bB3 bB4))
    (hE2 : dget? B "ETH_t2" = some (dist5 bE0 bE1 bE2 bE3 bE4))
    (hS2 : dget? B "SOL_t2" = some (dist5 bS0 bS1 bS2 bS3 bS4))
    (hrll : dget? cfg.entries "low_low" = some rll)
    (hrl : dget? cfg.entries "low" = some rl)
    (hrn : dget? cfg.entries "neutral" = some rn)
    (hrh : dget? cfg.entries "high" = some rh)
    (hrhh : dget? cfg.entries "high_high" = some rhh)
    (hrInf : dget? cfg.entries "inflation" = some rInf)
    (hA : dget? cfg.entries "investment_amount" = some A)
    (hmB1 : aB0 + aB1 + aB2 + aB3 + aB4 = 1)
    (hmE1 : aE0 + aE1 + aE2 + aE3 + aE4 = 1)
    (hmS1 : aS0 + aS1 + aS2 + aS3 + aS4 = 1)
    (hmB2 : bB0 + bB1 + bB2 + bB3 + bB4 = 1)
    (hmE2 : bE0 + bE1 + bE2 + bE3 + bE4 = 1)
    (hmS2 : bS0 + bS1 + bS2 + bS3 + bS4 = 1) :
    ∀ d ∈ optionsList,
      (get_return d B cfg idUx).map Prod.fst = some (A * (
        chooseQ (mu5 aB0 aB1 aB2 aB3 aB4 rll rl rn rh rhh)
                (mu5 aE0 aE1 aE2 aE3 aE4 rll rl rn rh rhh)
                (mu5 aS0 aS1 aS2 aS3 aS4 rll rl rn rh rhh) rInf d.1 *
        chooseQ (mu5 bB0 bB1 bB2 bB3 bB4 rll rl rn rh rhh)
                (mu5 bE0 bE1 bE2 bE3 bE4 rll rl rn rh rhh)
                (mu5 bS0 bS1 bS2 bS3 bS4 rll rl rn rh rhh) rInf d.2 - 1)) := by
  have hqB1 : epochDist B "BTC" "_t1" = some (dist5 aB0 aB1 aB2 aB3 aB4) := by
    simp [epochDist, hB1]
  have hqE1 : epochDist B "ETH" "_t1" = some (dist5 aE0 aE1 aE2 aE3 aE4) := by
    simp [epochDist, hE1]
  have hqS1 : epochDist B "SOL" "_t1" = some (dist5 aS0 aS1 aS2 aS3 aS4) := by
    simp [epochDist, hS1]
  have hqB2 : epochDist B "BTC" "_t2" = some (dist5 bB0 bB1 bB2 bB3 bB4) := by
    simp [epochDist, hB2]
  have hqE2 : epochDist B "ETH" "_t2" = some (dist5 bE0 bE1 bE2 bE3 bE4) := by
    simp [epochDist, hE2]
  have hqS2 : epochDist B "SOL" "_t2" = some (dist5 bS0 bS1 bS2 bS3 bS4) := by
    simp [epochDist, hS2]
  have hqC1 : epochDist B "CASH" "_t1" = some inflationDist := by simp [epochDist]
  have hqC2 : epochDist B "CASH" "_t2" = some inflationDist := by simp [epochDist]
  have hR5 : ∀ x0 x1 x2 x3 x4 : ℚ, ∀ kv ∈ dist5 x0 x1 x2 x3 x4,
      dget? cfg.entries kv.1 = some (retFn rll rl rn rh rhh rInf kv.1) := by
    intro x0 x1 x2 x3 x4 kv hkv
    simp only [dist5, List.mem_cons, List.not_mem_nil, or_false] at hkv
    rcases hkv with h | h | h | h | h <;> subst h <;>
      simp [retFn, hrll, hrl, hrn, hrh, hrhh]
  have hRi : ∀ kv ∈ inflationDist,
      dget? cfg.entries kv.1 = some (retFn rll rl rn rh rhh rInf kv.1) := by
    intro kv hkv
    simp only [inflationDist, List.mem_cons, List.not_mem_nil, or_false] at hkv
    subst hkv
    simp [retFn, hrInf]
  intro d hd
  rw [show optionsList = [("BTC", "BTC"), ("BTC", "ETH"), ("BTC", "SOL"), ("BTC", "CASH"),
      ("ETH", "BTC"), ("ETH", "ETH"), ("ETH", "SOL"), ("ETH", "CASH"),
      ("SOL", "BTC"), ("SOL", "ETH"), ("SOL", "SOL"), ("SOL", "CASH"),
      ("CASH", "BTC"), ("CASH", "ETH"), ("CASH", "SOL"), ("CASH", "CASH")] from rfl] at hd
  fin_cases hd
  · rw [get_return_eq hqB1 hqB2 hA (hR5 _ _ _ _ _) (hR5 _ _ _ _ _) (nodup55 _ _ _ _ _ _ _ _ _ _),
      evalSum55, hmB1, hmB2]
    simp [idUx, chooseQ]
  · rw [get_return_eq hqB1 hqE2 hA (hR5 _ _ _ _ _) (hR5 _ _ _ _ _) (nodup55 _ _ _ _ _ _ _ _ _ _),
      evalSum55, hmB1, hmE2]
    simp [idUx, chooseQ]
  · rw [get_return_eq hqB1 hqS2 hA (hR5 _ _ _ _ _) (hR5 _ _ _ _ _) (nodup55 _ _ _ _ _ _ _ _ _ _),
      evalSum55, hmB1, hmS2]
    simp [idUx, chooseQ]
  · rw [get_return_eq hqB1 hqC2 hA (hR5 _ _ _ _ _) hRi (nodup51 _ _ _ _ _),
      evalSum51, hmB1]
    simp [idUx, chooseQ]
  · rw [get_return_eq hqE1 hqB2 hA (hR5 _ _ _ _ _) (hR5 _ _ _ _ _) (nodup55 _ _ _ _ _ _ _ _ _ _),
      evalSum55, hmE1, hmB2]
    simp [idUx, chooseQ]
  · rw [get_return_eq hqE1 hqE2 hA (hR5 _ _ _ _ _) (hR5 _ _ _ _ _) (nodup55 _ _ _ _ _ _ _ _ _ _),
      evalSum55, hmE1, hmE2]
    simp [idUx, chooseQ]
  · rw [get_return_eq hqE1 hqS2 hA (hR5 _ _ _ _ _) (hR5 _ _ _ _ _) (nodup55 _ _ _ _ _ _ _ _ _ _),
      evalSum55, hmE1, hmS2]
    simp [idUx, chooseQ]
  · rw [get_return_eq hqE1 hqC2 hA (hR5 _ _ _ _ _) hRi (nodup51 _ _ _ _ _),
      evalSum51, hmE1]
    simp [idUx, chooseQ]
  · rw [get_return_eq hqS1 hqB2 hA (hR5 _ _ _ _ _) (hR5 _ _ _ _ _) (nodup55 _ _ _ _ _ _ _ _ _ _),
      evalSum55, hmS1, hmB2]
    simp [idUx, chooseQ]
  · rw [get_return_eq hqS1 hqE2 hA (hR5 _ _ _ _ _) (hR5 _ _ _ _ _) (nodup55 _ _ _ _ _ _ _ _ _ _),
      evalSum55, hmS1, hmE2]
    simp [idUx, chooseQ]
  · rw [get_return_eq hqS1 hqS2 hA (hR5 _ _ _ _ _) (hR5 _ _ _ _ _) (nodup55 _ _ _ _ _ _ _ _ _ _),
      evalSum55, hmS1, hmS2]
    simp [idUx, chooseQ]
  · rw [get_return_eq hqS1 hqC2 hA (hR5 _ _ _ _ _) hRi (nodup51 _ _ _ _ _),
      evalSum51, hmS1]
    simp [idUx, chooseQ]
  · rw [get_return_eq hqC1 hqB2 hA hRi (hR5 _ _ _ _ _) (nodup15 _ _ _ _ _),
      evalSum15, hmB2]
    simp [idUx, chooseQ]
  · rw [get_return_eq hqC1 hqE2 hA hRi (hR5 _ _ _ _ _) (nodup15 _ _ _ _ _),
      evalSum15, hmE2]
    simp [idUx, chooseQ]
  · rw [get_return_eq hqC1 hqS2 hA hRi (hR5 _ _ _ _ _) (nodup15 _ _ _ _ _),
      evalSum15, hmS2]
    simp [idUx, chooseQ]
  · rw [get_return_eq hqC1 hqC2 hA hRi hRi nodup11, evalSum11]
    simp [idUx, chooseQ]

theorem get_all_returns_eq {B : Bundle} {cfg : Config} {ux : (ℚ → ℚ) × (ℚ → ℚ)}
    {V : (String × String) → ℚ}
    (h : ∀ d ∈ optionsList, (get_return d B cfg ux).map Prod.fst = some (V d)) :
    get_all_returns B cfg ux =
      some (List.insertionSort relCe (optionsList.map fun d => (d, V d))) := by
  rw [get_all_returns]
  have hm : optionsList.mapM (fun d => do
      let cep ← get_return d B cfg ux
      pure (d, cep.1)) = some (optionsList.map fun d => (d, V d)) := by
    apply mapM_eq_map_of
    intro d hd
    obtain ⟨a, ha, hfa⟩ := Option.map_eq_some'.mp (h d hd)
    rw [ha]
    simp [hfa]
  rw [hm]
  rfl

theorem get_deal_value_eq {B : Bundle} {cfg : Config} {ux : (ℚ → ℚ) × (ℚ → ℚ)}
    {V : (String × String) → ℚ}
    (h : ∀ d ∈ optionsList, (get_return d B cfg ux).map Prod.fst = some (V d)) :
    ∃ dstar, dstar ∈ optionsList ∧ get_deal_value B cfg ux = some (dstar, V dstar) ∧
      ∀ d ∈ optionsList, V d ≤ V dstar := by
  have hrows := get_all_returns_eq h
  rw [get_deal_value]
  rw [hrows]
  obtain ⟨x, hx⟩ := insertionSort_ne_nil (l := optionsList.map fun d => (d, V d))
    (by simp [optionsList])
  obtain ⟨hmem, hmax⟩ := sorted_head_max hx
  rw [List.mem_map] at hmem
  obtain ⟨dstar, hdstar, hxd⟩ := hmem
  refine ⟨dstar, hdstar, ?_, ?_⟩
  · simp only [Option.bind_eq_bind, Option.some_bind]
    rw [hx, hxd]
  · intro d hd
    have := hmax (d, V d) (List.mem_map_of_mem _ hd)
    rw [← hxd] at this
    exact this

lemma coinStep_shape (config : Config) (custom p : Bundle) (coin : String) (b : Bundle)
    (h : coinStep config custom p coin = some b) :
    ∃ d1 d2, b = dinsert (dinsert p (coin ++ "_t1") (dgetD custom (coin ++ "_t1") d1))
      (coin ++ "_t2") (dgetD custom (coin ++ "_t2") d2) := by
  rw [coinStep] at h
  try rw [Option.bind_eq_bind] at h
  rw [Option.bind_eq_some] at h
  obtain ⟨st1, h1, h⟩ := h
  try simp only [] at h
  try rw [Option.bind_eq_bind] at h
  rw [Option.bind_eq_some] at h
  obtain ⟨base1, h2, h⟩ := h
  try simp only [] at h
  try rw [Option.bind_eq_bind] at h
  rw [Option.bind_eq_some] at h
  obtain ⟨ma1, h3, h⟩ := h
  try simp only [] at h
  try rw [Option.bind_eq_bind] at h
  rw [Option.bind_eq_some] at h
  obtain ⟨d1, h4, h⟩ := h
  try simp only [] at h
  try rw [Option.bind_eq_bind] at h
  rw [Option.bind_eq_some] at h
  obtain ⟨st2, h5, h⟩ := h
  try simp only [] at h
  try rw [Option.bind_eq_bind] at h
  rw [Option.bind_eq_some] at h
  obtain ⟨base2, h6, h⟩ := h
  try simp only [] at h
  try rw [Option.bind_eq_bind] at h
  rw [Option.bind_eq_some] at h
  obtain ⟨ma2, h7, h⟩ := h
  try simp only [] at h
  try rw [Option.bind_eq_bind] at h
  rw [Option.bind_eq_some] at h
  obtain ⟨d2, h8, h⟩ := h
  try simp only [] at h
  simp only [Option.pure_def, Option.some.injEq] at h
  exact ⟨d1, d2, h.symm⟩

theorem ma3_round_ok {x y z : ℚ} (hx : 0 ≤ x) (hy : 0 ≤ y) (hz : 0 ≤ z)
    (hs : x + y + z = 1) :
    0 ≤ round4 x ∧ 0 ≤ round4 y ∧ 0 ≤ round4 z ∧
      |round4 x + round4 y + round4 z - 1| ≤ 3/20000 := by
  refine ⟨round4_nonneg hx, round4_nonneg hy, round4_nonneg hz, ?_⟩
  have b1 := round4_sub_le x
  have b2 := round4_sub_le y
  have b3 := round4_sub_le z
  rw [abs_le] at b1 b2 b3 ⊢
  constructor <;> linarith [b1.1, b1.2, b2.1, b2.2, b3.1, b3.2]

theorem coin_dist_ok {m a b c l n h : ℚ} {d : Dist}
    (hd : update_base_proba (dist5 ((1 - m) * a) (m * a + (1/2) * (1 - m) * b) (m * b) (m * c + (1/2) * (1 - m) * b) ((1 - m) * c))
        (ma3 l n h) = some d)
    (hm0 : 0 ≤ m) (hm1 : m ≤ 1) (ha : 0 ≤ a) (hb : 0 ≤ b) (hc : 0 ≤ c)
    (habc : a + b + c = 1) (hl : 0 ≤ l) (hn : 0 ≤ n) (hh : 0 ≤ h)
    (hS : |l + n + h - 1| ≤ 3/20000) :
    (∀ e ∈ d, 0 ≤ e.2) ∧ |dsum d - 1| ≤ 3/20000 := by
  rw [update_eq] at hd
  have hd2 := Option.some_injective _ hd
  subst hd2
  have hB0 : 0 ≤ (1 - m) * a := mul_nonneg (by linarith) ha
  have hB1 : 0 ≤ m * a + (1/2) * (1 - m) * b :=
    add_nonneg (mul_nonneg hm0 ha) (mul_nonneg (mul_nonneg (by norm_num) (by linarith)) hb)
  have hB2 : 0 ≤ m * b := mul_nonneg hm0 hb
  have hB3 : 0 ≤ m * c + (1/2) * (1 - m) * b :=
    add_nonneg (mul_nonneg hm0 hc) (mul_nonneg (mul_nonneg (by norm_num) (by linarith)) hb)
  have hB4 : 0 ≤ (1 - m) * c := mul_nonneg (by linarith) hc
  constructor
  · intro e he
    simp only [List.mem_cons, List.not_mem_nil, or_false] at he
    rcases he with rfl | rfl | rfl | rfl | rfl
    · exact add_nonneg (add_nonneg (mul_nonneg hn hB0) (mul_nonneg hl hB0)) (mul_nonneg hl hB1)
    · exact add_nonneg (add_nonneg (mul_nonneg hn hB1) (mul_nonneg hl hB2)) (mul_nonneg hh hB0)
    · exact add_nonneg (add_nonneg (mul_nonneg hn hB2) (mul_nonneg hl hB3)) (mul_nonneg hh hB1)
    · exact add_nonneg (add_nonneg (mul_nonneg hn hB3) (mul_nonneg hl hB4)) (mul_nonneg hh hB2)
    · exact add_nonneg (add_nonneg (mul_nonneg hn hB4) (mul_nonneg hh hB3)) (mul_nonneg hh hB4)
  · have hX : dsum [("low_low", n * ((1 - m) * a) + l * ((1 - m) * a) + l * (m * a + (1/2) * (1 - m) * b)), ("low", n * (m * a + (1/2) * (1 - m) * b) + l * (m * b) + h * ((1 - m) * a)), ("neutral", n * (m * b) + l * (m * c + (1/2) * (1 - m) * b) + h * (m * a + (1/2) * (1 - m) * b)), ("high", n * (m * c + (1/2) * (1 - m) * b) + l * ((1 - m) * c) + h * (m * b)), ("high_high", n * ((1 - m) * c) + h * (m * c + (1/2) * (1 - m) * b) + h * ((1 - m) * c))] = l + n + h := by
      simp only [dsum, List.map_cons, List.map_nil, List.sum_cons, List.sum_nil]
      linear_combination (l + n + h) * habc
    rw [hX]
    exact hS

/-- C7: coin_base returns exactly the claimed 5-level distribution: low_low = (1-mag1)*p(low), low = mag1*p(low)+0.5*(1-mag1)*p(neutral), neutral = mag1*p(neutral), high = mag1*p(high)+0.5*(1-mag1)*p(neutral), high_high = (1-mag1)*p(high), with mag1 taken from the configuration key coin__mag1. -/
theorem C7_coin_base_formula :
    ∀ (coin : String) (p_stock : Dist) (cfg : Config) (m pl pn ph : ℚ),
      dget? cfg.entries (coin ++ "__mag1") = some m →
      dget? p_stock "low" = some pl →
      dget? p_stock "neutral" = some pn →
      dget? p_stock "high" = some ph →
      coin_base coin p_stock cfg = some
        [("low_low", (1 - m) * pl),
         ("low", m * pl + (1/2) * (1 - m) * pn),
         ("neutral", m * pn),
         ("high", m * ph + (1/2) * (1 - m) * pn),
         ("high_high", (1 - m) * ph)] := by
  intro coin p_stock cfg m pl pn ph hm hl hn hh
  rw [coin_base]
  simp [hm, hl, hn, hh]

/-- C9: mass preservation of update_base_proba: for every 5-entry base mapping with keys low_low/low/neutral/high/high_high and every market-adoption mapping with keys low/neutral/high, the output values sum to (sum of base values) times (sum of market-adoption values). -/
theorem C9_update_mass :
    ∀ (b0 b1 b2 b3 b4 l n h : ℚ),
      (update_base_proba
          [("low_low", b0), ("low", b1), ("neutral", b2), ("high", b3), ("high_high", b4)]
          [("low", l), ("neutral", n), ("high", h)]).map dsum
        = some ((b0 + b1 + b2 + b3 + b4) * (l + n + h)) := by
  intro b0 b1 b2 b3 b4 l n h
  rw [update_base_proba]
  simp [dsum, dget?]
  ring

/-- C3 (amended): provided the configuration maps the return level inflation to 1 and has an investment amount, evaluating (CASH, CASH) yields exactly one scenario with joint probability 1, total multiplier 1*1 = 1 and absolute return 0, and the certain equivalent is the utility round-trip of 0. -/
theorem C3_cash_cash_amended :
    ∀ (p : Bundle) (cfg : Config) (ux : (ℚ → ℚ) × (ℚ → ℚ)) (A : ℚ),
      dget? cfg.entries "inflation" = some 1 →
      dget? cfg.entries "investment_amount" = some A →
      get_return ("CASH", "CASH") p cfg ux =
        some (ux.2 (ux.1 0), [(("inflation|inflation", ux.1 0, 0, 1), 1)]) := by
  intro p cfg ux A h1 hA
  rw [get_return]
  simp only [epochDist, reduceIte, Option.pure_def, Option.some_bind, Option.bind_eq_bind]
  rw [show (inflationDist.flatMap fun e1 => inflationDist.map fun e2 => (e1, e2))
      = [(("inflation", (1 : ℚ)), ("inflation", (1 : ℚ)))] from rfl]
  have hb : List.mapM (fun ee : (String × ℚ) × (String × ℚ) => do
      let r1 ← dget? cfg.entries ee.1.1
      let r2 ← dget? cfg.entries ee.2.1
      let amt ← dget? cfg.entries "investment_amount"
      let total_return := r1 * r2
      let absolute_return := (total_return - 1) * amt
      let u_value := ux.1 absolute_return
      pure ((ee.1.1 ++ "|" ++ ee.2.1, u_value, absolute_return, total_return),
            ee.1.2 * ee.2.2))
      [(("inflation", (1 : ℚ)), ("inflation", (1 : ℚ)))]
      = some [(("inflation|inflation", ux.1 0, 0, 1), 1)] := by
    rw [List.mapM_cons, List.mapM_nil, h1, hA,
      show ("inflation" ++ "|" ++ "inflation" : String) = "inflation|inflation" from rfl]
    norm_num
  simp only [Option.bind_eq_bind, Option.pure_def] at hb
  rw [hb]
  simp only [Option.some_bind]
  norm_num [dinsert, List.insertionSort, List.orderedInsert]

/-- C10 (amended): get_probas equals the claimed extraction provided every key contains the separator at most once (the code takes split("__")[1], the segment between the first and second separator, not everything after the first separator); and when no key matches, it returns the empty mapping rather than an error. -/
theorem C10_get_probas_amended :
    (∀ (name : String) (config : Config),
      (∀ kv ∈ config.entries, (pySplit kv.1 "__").length ≤ 2) →
      get_probas name config = claimGetProbas name config) ∧
    (∀ (name : String) (config : Config),
      (∀ kv ∈ config.entries, ¬((pyIn name kv.1 && pyIn "__" kv.1) = true)) →
      get_probas name config = []) := by
  constructor
  · intro name config h
    rw [get_probas, claimGetProbas]
    have main : ∀ (l : List (String × ℚ)), (∀ kv ∈ l, (pySplit kv.1 "__").length ≤ 2) →
        ∀ acc : Dist,
        l.foldl (fun p kv => if pyIn name kv.1 && pyIn "__" kv.1 then
            dinsert p ((pySplit kv.1 "__").getD 1 "") kv.2 else p) acc =
        l.foldl (fun p kv => if pyIn name kv.1 && pyIn "__" kv.1 then
            dinsert p (afterFirstSep kv.1) kv.2 else p) acc := by
      intro l
      induction l with
      | nil => intro _ _; rfl
      | cons a t ih =>
        intro hl acc
        simp only [List.foldl_cons]
        by_cases hg : (pyIn name a.1 && pyIn "__" a.1) = true
        · rw [if_pos hg, if_pos hg]
          have hsub : pyIn "__" a.1 = true := (Bool.and_eq_true _ _ |>.mp hg).2
          have h2 : 2 ≤ (pySplit a.1 "__").length := by
            rw [pyIn] at hsub
            simpa using hsub
          have hlen : (pySplit a.1 "__").length = 2 :=
            le_antisymm (hl a (List.mem_cons_self _ _)) h2
          obtain ⟨x, y, hxy⟩ := List.length_eq_two.mp hlen
          have hsep : (pySplit a.1 "__").getD 1 "" = afterFirstSep a.1 := by
            rw [afterFirstSep, hxy]
            rfl
          rw [hsep]
          exact ih (fun kv hkv => hl kv (List.mem_cons_of_mem _ hkv)) _
        · rw [if_neg hg, if_neg hg]
          exact ih (fun kv hkv => hl kv (List.mem_cons_of_mem _ hkv)) _
    exact main config.entries h []
  · intro name config h
    rw [get_probas]
    have main : ∀ (l : List (String × ℚ)), (∀ kv ∈ l, ¬((pyIn name kv.1 && pyIn "__" kv.1) = true)) →
        l.foldl (fun p kv => if pyIn name kv.1 && pyIn "__" kv.1 then
            dinsert p ((pySplit kv.1 "__").getD 1 "") kv.2 else p) [] = [] := by
      intro l
      induction l with
      | nil => intro _; rfl
      | cons a t ih =>
        intro hl
        simp only [List.foldl_cons, if_neg (hl a (List.mem_cons_self _ _))]
        exact ih (fun kv hkv => hl kv (List.mem_cons_of_mem _ hkv))
    exact main config.entries h

/-- C6: for every configuration and every override mapping, a successfully computed bundle from calculate_probabilities has exactly the 13 keys stock_t1, stock_t2, reg, public_perception, technology, ma_t1, ma_t2, BTC_t1, BTC_t2, ETH_t1, ETH_t2, SOL_t1, SOL_t2, and every overridden name among them maps to the supplied distribution verbatim. -/
theorem C6_bundle_keys_and_overrides :
    ∀ (cfg : Config) (custom : Bundle) (b : Bundle),
      calculate_probabilities cfg custom = some b →
      b.map Prod.fst = keys13 ∧
      (∀ nm ∈ keys13, ∀ D : Dist, dget? custom nm = some D → dget? b nm = some D) := by
  intro cfg custom b h
  set s1 := dgetD custom "stock_t1" (get_probas "STOCKMARKET_T1" cfg) with hs1
  set s2 := dgetD custom "stock_t2" (get_probas "STOCKMARKET_T2" cfg) with hs2
  set rg := dgetD custom "reg" (get_probas "REG" cfg) with hrg
  set pp := dgetD custom "public_perception" (get_probas "PUBLIC_PERCEPTION" cfg) with hpp
  set tc := dgetD custom "technology" (get_probas "TECHNOLOGY" cfg) with htc
  rw [calculate_probabilities] at h
  rw [show dinsert (dinsert (dinsert (dinsert (dinsert ([] : Bundle) "stock_t1" s1) "stock_t2" s2) "reg" rg) "public_perception" pp) "technology" tc = [("stock_t1", s1), ("stock_t2", s2), ("reg", rg), ("public_perception", pp), ("technology", tc)] from rfl] at h
  rw [Option.bind_eq_bind, Option.bind_eq_some] at h
  obtain ⟨maDer, hma, h⟩ := h
  try simp only [] at h
  set maD := dgetD custom "ma_t1" maDer with hmaD
  rw [show dinsert [("stock_t1", s1), ("stock_t2", s2), ("reg", rg), ("public_perception", pp), ("technology", tc)] "ma_t1" maD = [("stock_t1", s1), ("stock_t2", s2), ("reg", rg), ("public_perception", pp), ("technology", tc), ("ma_t1", maD)] from rfl] at h
  rw [show dget? [("stock_t1", s1), ("stock_t2", s2), ("reg", rg), ("public_perception", pp), ("technology", tc), ("ma_t1", maD)] "ma_t1" = some maD from rfl] at h
  simp only [Option.bind_eq_bind, Option.some_bind, market_adaption_t2] at h
  set ma2D := dgetD custom "ma_t2" maD with hma2D
  rw [show dinsert [("stock_t1", s1), ("stock_t2", s2), ("reg", rg), ("public_perception", pp), ("technology", tc), ("ma_t1", maD)] "ma_t2" ma2D = [("stock_t1", s1), ("stock_t2", s2), ("reg", rg), ("public_perception", pp), ("technology", tc), ("ma_t1", maD), ("ma_t2", ma2D)] from rfl] at h
  try rw [Option.bind_eq_bind] at h
  rw [Option.bind_eq_some] at h
  obtain ⟨pB, hstepB, h⟩ := h
  try simp only [] at h
  obtain ⟨dB1p, dB2p, hshB⟩ := coinStep_shape cfg custom [("stock_t1", s1), ("stock_t2", s2), ("reg", rg), ("public_perception", pp), ("technology", tc), ("ma_t1", maD), ("ma_t2", ma2D)] "BTC" pB hstepB
  simp only [show ("BTC" ++ "_t1" : String) = "BTC_t1" from rfl, show ("BTC" ++ "_t2" : String) = "BTC_t2" from rfl] at hshB
  subst hshB
  set dB1 := dgetD custom "BTC_t1" dB1p with hdB1
  set dB2 := dgetD custom "BTC_t2" dB2p with hdB2
  rw [show dinsert (dinsert [("stock_t1", s1), ("stock_t2", s2), ("reg", rg), ("public_perception", pp), ("technology", tc), ("ma_t1", maD), ("ma_t2", ma2D)] "BTC_t1" dB1) "BTC_t2" dB2 = [("stock_t1", s1), ("stock_t2", s2), ("reg", rg), ("public_perception", pp), ("technology", tc), ("ma_t1", maD), ("ma_t2", ma2D), ("BTC_t1", dB1), ("BTC_t2", dB2)] from rfl] at h
  try rw [Option.bind_eq_bind] at h
  rw [Option.bind_eq_some] at h
  obtain ⟨pE, hstepE, h⟩ := h
  try simp only [] at h
  obtain ⟨dE1p, dE2p, hshE⟩ := coinStep_shape cfg custom [("stock_t1", s1), ("stock_t2", s2), ("reg", rg), ("public_perception", pp), ("technology", tc), ("ma_t1", maD), ("ma_t2", ma2D), ("BTC_t1", dB1), ("BTC_t2", dB2)] "ETH" pE hstepE
  simp only [show ("ETH" ++ "_t1" : String) = "ETH_t1" from rfl, show ("ETH" ++ "_t2" : String) = "ETH_t2" from rfl] at hshE
  subst hshE
  set dE1 := dgetD custom "ETH_t1" dE1p with hdE1
  set dE2 := dgetD custom "ETH_t2" dE2p with hdE2
  rw [show dinsert (dinsert [("stock_t1", s1), ("stock_t2", s2), ("reg", rg), ("public_perception", pp), ("technology", tc), ("ma_t1", maD), ("ma_t2", ma2D), ("BTC_t1", dB1), ("BTC_t2", dB2)] "ETH_t1" dE1) "ETH_t2" dE2 = [("stock_t1", s1), ("stock_t2", s2), ("reg", rg), ("public_perception", pp), ("technology", tc), ("ma_t1", maD), ("ma_t2", ma2D), ("BTC_t1", dB1), ("BTC_t2", dB2), ("ETH_t1", dE1), ("ETH_t2", dE2)] from rfl] at h
  obtain ⟨dS1p, dS2p, hshS⟩ := coinStep_shape cfg custom [("stock_t1", s1), ("stock_t2", s2), ("reg", rg), ("public_perception", pp), ("technology", tc), ("ma_t1", maD), ("ma_t2", ma2D), ("BTC_t1", dB1), ("BTC_t2", dB2), ("ETH_t1", dE1), ("ETH_t2", dE2)] "SOL" b h
  simp only [show ("SOL" ++ "_t1" : String) = "SOL_t1" from rfl, show ("SOL" ++ "_t2" : String) = "SOL_t2" from rfl] at hshS
  set dS1 := dgetD custom "SOL_t1" dS1p with hdS1
  set dS2 := dgetD custom "SOL_t2" dS2p with hdS2
  rw [show dinsert (dinsert [("stock_t1", s1), ("stock_t2", s2), ("reg", rg), ("public_perception", pp), ("technology", tc), ("ma_t1", maD), ("ma_t2", ma2D), ("BTC_t1", dB1), ("BTC_t2", dB2), ("ETH_t1", dE1), ("ETH_t2", dE2)] "SOL_t1" dS1) "SOL_t2" dS2 = [("stock_t1", s1), ("stock_t2", s2), ("reg", rg), ("public_perception", pp), ("technology", tc), ("ma_t1", maD), ("ma_t2", ma2D), ("BTC_t1", dB1), ("BTC_t2", dB2), ("ETH_t1", dE1), ("ETH_t2", dE2), ("SOL_t1", dS1), ("SOL_t2", dS2)] from rfl] at hshS
  subst hshS
  constructor
  · rfl
  · intro nm hnm D hD
    rw [keys13] at hnm
    fin_cases hnm
    · show some s1 = some D
      rw [hs1]
      simp [dgetD, hD]
    · show some s2 = some D
      rw [hs2]
      simp [dgetD, hD]
    · show some rg = some D
      rw [hrg]
      simp [dgetD, hD]
    · show some pp = some D
      rw [hpp]
      simp [dgetD, hD]
    · show some tc = some D
      rw [htc]
      simp [dgetD, hD]
    · show some maD = some D
      rw [hmaD]
      simp [dgetD, hD]
    · show some ma2D = some D
      rw [hma2D]
      simp [dgetD, hD]
    · show some dB1 = some D
      rw [hdB1]
      simp [dgetD, hD]
    · show some dB2 = some D
      rw [hdB2]
      simp [dgetD, hD]
    · show some dE1 = some D
      rw [hdE1]
      simp [dgetD, hD]
    · show some dE2 = some D
      rw [hdE2]
      simp [dgetD, hD]
    · show some dS1 = some D
      rw [hdS1]
      simp [dgetD, hD]
    · show some dS2 = some D
      rw [hdS2]
      simp [dgetD, hD]

/-- C5: whenever every decision pair evaluates successfully, get_all_returns returns exactly 16 entries — one per pair in the 4-by-4 action product, as a permutation of the evaluated product — sorted in descending order of the computed value, and get_deal_value returns exactly the first entry of that list. -/
theorem C5_sixteen_sorted_top :
    ∀ (B : Bundle) (cfg : Config) (ux : (ℚ → ℚ) × (ℚ → ℚ)) (V : (String × String) → ℚ),
      (∀ d ∈ optionsList, (get_return d B cfg ux).map Prod.fst = some (V d)) →
      ∃ rows, get_all_returns B cfg ux = some rows ∧
        rows.length = 16 ∧
        List.Perm rows (optionsList.map fun d => (d, V d)) ∧
        List.Pairwise (fun a b : (String × String) × ℚ => b.2 ≤ a.2) rows ∧
        get_deal_value B cfg ux = rows.head? := by
  intro B cfg ux V h
  have hrows := get_all_returns_eq h
  refine ⟨_, hrows, ?_, ?_, ?_, ?_⟩
  · rw [List.length_insertionSort, List.length_map]
    rfl
  · exact List.perm_insertionSort _ _
  · exact List.sorted_insertionSort relCe _
  · rw [get_deal_value, hrows]
    simp only [Option.bind_eq_bind, Option.some_bind]

theorem dget?_self_of_nodup {κ α : Type} [DecidableEq κ] :
    ∀ {l : List (κ × α)}, (l.map Prod.fst).Nodup → ∀ kv ∈ l, dget? l kv.1 = some kv.2 := by
  intro l
  induction l with
  | nil => intro _ kv hkv; cases hkv
  | cons a t ih =>
    intro hnd kv hkv
    rw [List.map_cons, List.nodup_cons] at hnd
    rcases List.mem_cons.mp hkv with h | h
    · subst h
      rw [dget?, if_pos rfl]
    · rw [dget?, if_neg, ih hnd.2 kv h]
      intro he
      exact hnd.1 (he ▸ List.mem_map_of_mem Prod.fst h)

theorem cv_fold_eq (X : String) (cfg : Config) (ux : (ℚ → ℚ) × (ℚ → ℚ)) (pb : Dist)
    (bv : String → ((String × String) × ℚ)) :
    ∀ (l : List (String × ℚ)) (acc : List (String × ((String × String) × ℚ))),
      (∀ kv ∈ l,
        (calculate_probabilities cfg (dinsert [] X (dinsert pb kv.1 1))).bind
          (fun hyp => get_deal_value hyp cfg ux) = some (bv kv.1)) →
      ((acc.map Prod.fst ++ l.map Prod.fst).Nodup) →
      l.foldlM (fun acc kv => do
          let forced := dinsert pb kv.1 1
          let hyp ← calculate_probabilities cfg (dinsert [] X forced)
          let av ← get_deal_value hyp cfg ux
          pure (dinsert acc kv.1 av)) acc
        = some (acc ++ l.map fun kv => (kv.1, bv kv.1)) := by
  intro l
  induction l with
  | nil => intro acc _ _; simp
  | cons a t ih =>
    intro acc h hnd
    obtain ⟨hyp, hcalc, hgdv⟩ := Option.bind_eq_some.mp (h a (List.mem_cons_self _ _))
    rw [List.foldlM_cons]
    have hne : ∀ e ∈ acc, e.1 ≠ a.1 := by
      intro e he hk
      have hsplit := List.nodup_append.mp hnd
      exact hsplit.2.2 (List.mem_map_of_mem Prod.fst he)
        (by rw [List.map_cons]; exact hk ▸ List.mem_cons_self _ _)
    have hstep : (do
        let forced := dinsert pb a.1 1
        let hyp ← calculate_probabilities cfg (dinsert [] X forced)
        let av ← get_deal_value hyp cfg ux
        pure (dinsert acc a.1 av)) = some (dinsert acc a.1 (bv a.1)) := by
      simp only [] 
      rw [hcalc]
      simp only [Option.bind_eq_bind, Option.some_bind]
      rw [hgdv]
      rfl
    rw [hstep]
    simp only [Option.bind_eq_bind, Option.some_bind]
    rw [dinsert_append hne]
    have hnd2 : (((acc ++ [(a.1, bv a.1)]).map Prod.fst) ++ t.map Prod.fst).Nodup := by
      simp only [List.map_append, List.map_cons] at hnd ⊢
      simpa using hnd
    have ih2 := ih (acc ++ [(a.1, bv a.1)]) (fun kv hkv => h kv (List.mem_cons_of_mem _ hkv)) hnd2
    simp only [Option.bind_eq_bind, Option.some_bind] at ih2
    rw [ih2]
    simp

theorem clairvoyance_eq :
    ∀ (X : String) (B : Bundle) (cfg : Config) (ux : (ℚ → ℚ) × (ℚ → ℚ))
      (pX : Dist) (bv : String → ((String × String) × ℚ)) (base : (String × String) × ℚ),
      dget? B X = some pX →
      (pX.map Prod.fst).Nodup →
      (∀ kv ∈ pX,
        (calculate_probabilities cfg
            (dinsert [] X (dinsert (pX.map fun kv2 => (kv2.1, (0 : ℚ))) kv.1 1))).bind
          (fun hyp => get_deal_value hyp cfg ux) = some (bv kv.1)) →
      get_deal_value B cfg ux = some base →
      ∃ r, clairvoyance X B cfg ux = some r ∧
        r.deal_value_free_cv = (pX.map fun kv => kv.2 * (bv kv.1).2).sum ∧
        r.cv_value_with_delta = (pX.map fun kv => kv.2 * (bv kv.1).2).sum - base.2 := by
  intro X B cfg ux pX bv base hpX hnd hbv hbase
  rw [clairvoyance, hpX]
  simp only [Option.bind_eq_bind, Option.some_bind]
  have hndb : ((pX.map fun kv => (kv.1, (0 : ℚ))).map Prod.fst).Nodup := by
    rw [List.map_map]
    simpa using hnd
  have hfold := cv_fold_eq X cfg ux (pX.map fun kv => (kv.1, (0 : ℚ))) bv
    (pX.map fun kv => (kv.1, (0 : ℚ))) []
    (by
      intro kv hkv
      obtain ⟨kv0, hkv0, hkve⟩ := List.mem_map.mp hkv
      subst hkve
      simpa using hbv kv0 hkv0)
    (by simpa using hndb)
  have hbavmap : ([] : List (String × ((String × String) × ℚ))) ++
      List.map (fun kv => (kv.1, bv kv.1)) (List.map (fun kv => (kv.1, (0 : ℚ))) pX) =
      List.map (fun kv => (kv.1, bv kv.1)) pX := by
    rw [List.nil_append, List.map_map]
    rfl
  rw [hbavmap] at hfold
  simp only [Option.bind_eq_bind, Option.some_bind] at hfold
  rw [hfold]
  simp only [Option.bind_eq_bind, Option.some_bind]
  have hterms : (pX.map fun kv => (kv.1, (0 : ℚ))).mapM (fun kv => do
      let w ← dget? pX kv.1
      let av ← dget? (List.map (fun kv => (kv.1, bv kv.1)) pX) kv.1
      pure (w * av.2)) = some ((pX.map fun kv => (kv.1, (0 : ℚ))).map
        (fun kv => dgetD pX kv.1 0 * (bv kv.1).2)) := by
    apply mapM_eq_map_of
    intro kv hkv
    obtain ⟨kv0, hkv0, hkve⟩ := List.mem_map.mp hkv
    subst hkve
    have hw : dget? pX (kv0.1, (0 : ℚ)).1 = some kv0.2 :=
      dget?_self_of_nodup hnd kv0 hkv0
    have hav : dget? (List.map (fun kv => (kv.1, bv kv.1)) pX) (kv0.1, (0 : ℚ)).1 =
        some (bv kv0.1) := by
      have hndm : ((pX.map fun kv => (kv.1, bv kv.1)).map Prod.fst).Nodup := by
        rw [List.map_map]
        simpa using hnd
      exact dget?_self_of_nodup hndm (kv0.1, bv kv0.1) (List.mem_map_of_mem _ hkv0)
    rw [hw]
    simp only [Option.bind_eq_bind, Option.some_bind]
    rw [hav]
    simp only [Option.bind_eq_bind, Option.some_bind, Option.pure_def]
    rw [dgetD, hw]
    rfl
  simp only [Option.bind_eq_bind, Option.some_bind] at hterms
  rw [hterms]
  simp only [Option.bind_eq_bind, Option.some_bind]
  rw [hbase]
  simp only [Option.bind_eq_bind, Option.some_bind, Option.pure_def]
  have hsum : ((pX.map fun kv => (kv.1, (0 : ℚ))).map
      (fun kv => dgetD pX kv.1 0 * (bv kv.1).2)).sum =
      (pX.map fun kv => kv.2 * (bv kv.1).2).sum := by
    rw [List.map_map]
    congr 1
    apply List.map_congr_left
    intro kv hkv
    simp only [Function.comp]
    rw [dgetD, dget?_self_of_nodup hnd kv hkv]
    rfl
  exact ⟨_, rfl, hsum, by rw [hsum]⟩

/-- C8: the free-clairvoyance deal value returned by clairvoyance on X is the sum over the
outcomes of X's baseline distribution of the original baseline marginal probability times the
best deal value computed on the bundle rebuilt with the single override forcing X to
probability 1 on that outcome and 0 elsewhere; the delta subtracts the baseline best value. -/
theorem C8_free_cv_weighted_sum :
    ∀ (X : String) (B : Bundle) (cfg : Config) (ux : (ℚ → ℚ) × (ℚ → ℚ))
      (pX : Dist) (bv : String → ((String × String) × ℚ)) (base : (String × String) × ℚ),
      dget? B X = some pX →
      (pX.map Prod.fst).Nodup →
      (∀ kv ∈ pX,
        (calculate_probabilities cfg
            (dinsert [] X (dinsert (pX.map fun kv2 => (kv2.1, (0 : ℚ))) kv.1 1))).bind
          (fun hyp => get_deal_value hyp cfg ux) = some (bv kv.1)) →
      get_deal_value B cfg ux = some base →
      ∃ r, clairvoyance X B cfg ux = some r ∧
        r.deal_value_free_cv = (pX.map fun kv => kv.2 * (bv kv.1).2).sum ∧
        r.cv_value_with_delta = (pX.map fun kv => kv.2 * (bv kv.1).2).sum - base.2 :=
  clairvoyance_eq

/-- C2 (amended): for every configuration whose five categorical parameter groups are
non-negative and sum to 1, whose market-adoption input weights are non-negative and sum to 1,
and whose three mag1 values lie in [0,1], calculate_probabilities succeeds and every one of
the 13 categorical distributions in the bundle has non-negative entries whose values sum to 1
within a tolerance of 3/20000 (the 1e-6 tolerance of the original claim is refuted by
C2_tolerance_violation; rounding the market-adoption marginals to 4 decimals can move each of
the three entries by up to 1/20000). -/
theorem C2_nonneg_sum_amended :
    ∀ (cfg : Config) (a1 b1 c1 a2 b2 c2 g0 g1 g2 p0 p1 p2 u0 u1 u2 w1 w2 w3 mB mE mS : ℚ),
      get_probas "STOCKMARKET_T1" cfg = stock3 a1 b1 c1 →
      get_probas "STOCKMARKET_T2" cfg = stock3 a2 b2 c2 →
      get_probas "REG" cfg = dist3 g0 g1 g2 →
      get_probas "PUBLIC_PERCEPTION" cfg = dist3 p0 p1 p2 →
      get_probas "TECHNOLOGY" cfg = dist3 u0 u1 u2 →
      cfg.MA_inputweights = (w1, w2, w3) →
      dget? cfg.entries "BTC__mag1" = some mB →
      dget? cfg.entries "ETH__mag1" = some mE →
      dget? cfg.entries "SOL__mag1" = some mS →
      0 ≤ a1 → 0 ≤ b1 → 0 ≤ c1 → a1 + b1 + c1 = 1 →
      0 ≤ a2 → 0 ≤ b2 → 0 ≤ c2 → a2 + b2 + c2 = 1 →
      0 ≤ g0 → 0 ≤ g1 → 0 ≤ g2 → g0 + g1 + g2 = 1 →
      0 ≤ p0 → 0 ≤ p1 → 0 ≤ p2 → p0 + p1 + p2 = 1 →
      0 ≤ u0 → 0 ≤ u1 → 0 ≤ u2 → u0 + u1 + u2 = 1 →
      0 ≤ w1 → 0 ≤ w2 → 0 ≤ w3 → w1 + w2 + w3 = 1 →
      0 ≤ mB → mB ≤ 1 → 0 ≤ mE → mE ≤ 1 → 0 ≤ mS → mS ≤ 1 →
      ∃ bun, calculate_probabilities cfg [] = some bun ∧
        ∀ kv ∈ bun, (∀ e ∈ kv.2, 0 ≤ e.2) ∧ |dsum kv.2 - 1| ≤ 3/20000 := by
  intro cfg a1 b1 c1 a2 b2 c2 g0 g1 g2 p0 p1 p2 u0 u1 u2 w1 w2 w3 mB mE mS
  intro hS1 hS2 hG hP hU hw hmB hmE hmS
  intro ha1 hb1 hc1 hs1 ha2 hb2 hc2 hs2 hg0 hg1 hg2 hgs hp0 hp1 hp2 hps
  intro hu0 hu1 hu2 hus hw1 hw2 hw3 hws hmB0 hmB1 hmE0 hmE1 hmS0 hmS1
  have hma := ma_t1_eq (P := [("stock_t1", stock3 a1 b1 c1), ("stock_t2", stock3 a2 b2 c2),
      ("reg", dist3 g0 g1 g2), ("public_perception", dist3 p0 p1 p2),
      ("technology", dist3 u0 u1 u2)]) hw rfl rfl rfl hps hgs hus
  have hmB2 : dget? cfg.entries ("BTC" ++ "__mag1") = some mB := by
    rw [show ("BTC" ++ "__mag1" : String) = "BTC__mag1" from rfl]
    exact hmB
  have hmE2 : dget? cfg.entries ("ETH" ++ "__mag1") = some mE := by
    rw [show ("ETH" ++ "__mag1" : String) = "ETH__mag1" from rfl]
    exact hmE
  have hmS2 : dget? cfg.entries ("SOL" ++ "__mag1") = some mS := by
    rw [show ("SOL" ++ "__mag1" : String) = "SOL__mag1" from rfl]
    exact hmS
  have hid : ∀ (k : String) (v : Dist), dgetD ([] : Bundle) k v = v := fun _ _ => rfl
  have hS1e : dgetD ([] : Bundle) "stock_t1" (get_probas "STOCKMARKET_T1" cfg) =
      stock3 a1 b1 c1 := hS1
  have hS2e : dgetD ([] : Bundle) "stock_t2" (get_probas "STOCKMARKET_T2" cfg) =
      stock3 a2 b2 c2 := hS2
  have hGe : dgetD ([] : Bundle) "reg" (get_probas "REG" cfg) = dist3 g0 g1 g2 := hG
  have hPe : dgetD ([] : Bundle) "public_perception" (get_probas "PUBLIC_PERCEPTION" cfg) =
      dist3 p0 p1 p2 := hP
  have hUe : dgetD ([] : Bundle) "technology" (get_probas "TECHNOLOGY" cfg) =
      dist3 u0 u1 u2 := hU
  have hbun := bundle_eq hS1e hS2e hGe hPe hUe hma (hid _ _) (hid _ _)
    (coin_base_eq hmB2) update_eq (hid _ _) (coin_base_eq hmB2) update_eq (hid _ _)
    (coin_base_eq hmE2) update_eq (hid _ _) (coin_base_eq hmE2) update_eq (hid _ _)
    (coin_base_eq hmS2) update_eq (hid _ _) (coin_base_eq hmS2) update_eq (hid _ _)
  refine ⟨_, hbun, ?_⟩
  have hxl : 0 ≤ w1 * p0 + w2 * g0 + w3 * u0 :=
    add_nonneg (add_nonneg (mul_nonneg hw1 hp0) (mul_nonneg hw2 hg0)) (mul_nonneg hw3 hu0)
  have hxn : 0 ≤ w1 * p1 + w2 * g1 + w3 * u1 :=
    add_nonneg (add_nonneg (mul_nonneg hw1 hp1) (mul_nonneg hw2 hg1)) (mul_nonneg hw3 hu1)
  have hxh : 0 ≤ w1 * p2 + w2 * g2 + w3 * u2 :=
    add_nonneg (add_nonneg (mul_nonneg hw1 hp2) (mul_nonneg hw2 hg2)) (mul_nonneg hw3 hu2)
  have hxs : (w1 * p0 + w2 * g0 + w3 * u0) + (w1 * p1 + w2 * g1 + w3 * u1) + (w1 * p2 + w2 * g2 + w3 * u2) = 1 := by
    linear_combination w1 * hps + w2 * hgs + w3 * hus + hws
  obtain ⟨hL0, hN0, hH0, hRsum⟩ := ma3_round_ok hxl hxn hxh hxs
  intro kv hkv
  simp only [List.mem_cons, List.not_mem_nil, or_false] at hkv
  rcases hkv with rfl | rfl | rfl | rfl | rfl | rfl | rfl | rfl | rfl | rfl | rfl | rfl | rfl
  · refine ⟨?_, ?_⟩
    · intro e he
      simp only [stock3, List.mem_cons, List.not_mem_nil, or_false] at he
      rcases he with rfl | rfl | rfl
      · exact ha1
      · exact hb1
      · exact hc1
    · have h3 : dsum (stock3 a1 b1 c1) = a1 + b1 + c1 := by
        simp only [stock3, dsum, List.map_cons, List.map_nil, List.sum_cons, List.sum_nil]
        ring
      rw [h3, hs1]
      norm_num
  · refine ⟨?_, ?_⟩
    · intro e he
      simp only [stock3, List.mem_cons, List.not_mem_nil, or_false] at he
      rcases he with rfl | rfl | rfl
      · exact ha2
      · exact hb2
      · exact hc2
    · have h3 : dsum (stock3 a2 b2 c2) = a2 + b2 + c2 := by
        simp only [stock3, dsum, List.map_cons, List.map_nil, List.sum_cons, List.sum_nil]
        ring
      rw [h3, hs2]
      norm_num
  · refine ⟨?_, ?_⟩
    · intro e he
      simp only [dist3, List.mem_cons, List.not_mem_nil, or_false] at he
      rcases he with rfl | rfl | rfl
      · exact hg0
      · exact hg1
      · exact hg2
    · have h3 : dsum (dist3 g0 g1 g2) = g0 + g1 + g2 := by
        simp only [dist3, dsum, List.map_cons, List.map_nil, List.sum_cons, List.sum_nil]
        ring
      rw [h3, hgs]
      norm_num
  · refine ⟨?_, ?_⟩
    · intro e he
      simp only [dist3, List.mem_cons, List.not_mem_nil, or_false] at he
      rcases he with rfl | rfl | rfl
      · exact hp0
      · exact hp1
      · exact hp2
    · have h3 : dsum (dist3 p0 p1 p2) = p0 + p1 + p2 := by
        simp only [dist3, dsum, List.map_cons, List.map_nil, List.sum_cons, List.sum_nil]
        ring
      rw [h3, hps]
      norm_num
  · refine ⟨?_, ?_⟩
    · intro e he
      simp only [dist3, List.mem_cons, List.not_mem_nil, or_false] at he
      rcases he with rfl | rfl | rfl
      · exact hu0
      · exact hu1
      · exact hu2
    · have h3 : dsum (dist3 u0 u1 u2) = u0 + u1 + u2 := by
        simp only [dist3, dsum, List.map_cons, List.map_nil, List.sum_cons, List.sum_nil]
        ring
      rw [h3, hus]
      norm_num
  · refine ⟨?_, ?_⟩
    · intro e he
      simp only [ma3, List.mem_cons, List.not_mem_nil, or_false] at he
      rcases he with rfl | rfl | rfl
      · exact hL0
      · exact hN0
      · exact hH0
    · have h3 : dsum (ma3 (round4 (w1 * p0 + w2 * g0 + w3 * u0)) (round4 (w1 * p1 + w2 * g1 + w3 * u1)) (round4 (w1 * p2 + w2 * g2 + w3 * u2))) =
          (round4 (w1 * p0 + w2 * g0 + w3 * u0)) + (round4 (w1 * p1 + w2 * g1 + w3 * u1)) + (round4 (w1 * p2 + w2 * g2 + w3 * u2)) := by
        simp only [ma3, dsum, List.map_cons, List.map_nil, List.sum_cons, List.sum_nil]
        ring
      rw [h3]
      exact hRsum
  · refine ⟨?_, ?_⟩
    · intro e he
      simp only [ma3, List.mem_cons, List.not_mem_nil, or_false] at he
      rcases he with rfl | rfl | rfl
      · exact hL0
      · exact hN0
      · exact hH0
    · have h3 : dsum (ma3 (round4 (w1 * p0 + w2 * g0 + w3 * u0)) (round4 (w1 * p1 + w2 * g1 + w3 * u1)) (round4 (w1 * p2 + w2 * g2 + w3 * u2))) =
          (round4 (w1 * p0 + w2 * g0 + w3 * u0)) + (round4 (w1 * p1 + w2 * g1 + w3 * u1)) + (round4 (w1 * p2 + w2 * g2 + w3 * u2)) := by
        simp only [ma3, dsum, List.map_cons, List.map_nil, List.sum_cons, List.sum_nil]
        ring
      rw [h3]
      exact hRsum
  · exact coin_dist_ok update_eq hmB0 hmB1 ha1 hb1 hc1 hs1 hL0 hN0 hH0 hRsum
  · exact coin_dist_ok update_eq hmB0 hmB1 ha2 hb2 hc2 hs2 hL0 hN0 hH0 hRsum
  · exact coin_dist_ok update_eq hmE0 hmE1 ha1 hb1 hc1 hs1 hL0 hN0 hH0 hRsum
  · exact coin_dist_ok update_eq hmE0 hmE1 ha2 hb2 hc2 hs2 hL0 hN0 hH0 hRsum
  · exact coin_dist_ok update_eq hmS0 hmS1 ha1 hb1 hc1 hs1 hL0 hN0 hH0 hRsum
  · exact coin_dist_ok update_eq hmS0 hmS1 ha2 hb2 hc2 hs2 hL0 hN0 hH0 hRsum

/-! ### Decidable evaluations: counterexamples and witnesses on concrete inputs -/

attribute [local semireducible] Rat.mul Rat.add Rat.inv Rat.sub

/-- Witness for C7 at the concrete configuration cfgA, coin BTC and its
degenerate t1 stock distribution. -/
theorem C7_witness :
    coin_base "BTC" (stock3 1 0 0) cfgA = some
      [("low_low", (1 - (1/2 : ℚ)) * 1),
       ("low", (1/2 : ℚ) * 1 + (1/2) * (1 - (1/2 : ℚ)) * 0),
       ("neutral", (1/2 : ℚ) * 0),
       ("high", (1/2 : ℚ) * 0 + (1/2) * (1 - (1/2 : ℚ)) * 0),
       ("high_high", (1 - (1/2 : ℚ)) * 0)] :=
  C7_coin_base_formula "BTC" (stock3 1 0 0) cfgA (1/2) 1 0 0
    (by rw [show ("BTC" ++ "__mag1" : String) = "BTC__mag1" from rfl]; decide)
    (by decide) (by decide) (by decide)

/-- Witness for C3 at cfgA with the identity utility pair. -/
theorem C3_witness :
    get_return ("CASH", "CASH") [] cfgA idUx = some (0, [(("inflation|inflation", 0, 0, 1), 1)]) := by
  have h := C3_cash_cash_amended [] cfgA idUx 10000 (by decide) (by decide)
  simpa [idUx] using h

/-- C3 counterexample: with a configuration mapping inflation to 2, the single
(CASH, CASH) scenario has total multiplier 4 and absolute return 30000, not 1
and 0 as the claim states for every configuration. -/
theorem C3_multiplier_not_one :
    get_return ("CASH", "CASH") [] cfgI2 idUx =
      some (30000, [(("inflation|inflation", 30000, 30000, 4), 1)]) ∧
    (4 : ℚ) ≠ 1 ∧ (30000 : ℚ) ≠ 0 := by
  refine ⟨by decide, by norm_num, by norm_num⟩

/-- Witness for C10 at cfgA, whose keys all contain the separator at most once. -/
theorem C10_witness :
    get_probas "REG" cfgA = claimGetProbas "REG" cfgA :=
  C10_get_probas_amended.1 "REG" cfgA (by decide)

/-- C10 counterexample: on a key containing the separator twice, get_probas
associates the middle segment, not the portion after the first separator as
the claim states. -/
theorem C10_after_first_sep_mismatch :
    get_probas "N" cfgTwoSep = [("a", 5)] ∧
    claimGetProbas "N" cfgTwoSep = [("a__b", 5)] ∧
    ("a__b", (5 : ℚ)) ∉ get_probas "N" cfgTwoSep := by
  refine ⟨by decide, by decide, by decide⟩



/-- C4 counterexample: on a configuration whose STOCKMARKET_T1 group sums to
2, the pipeline raises no configuration error: the malformed distribution is
propagated into the bundle and decision evaluation completes with a result. -/
theorem C4_malformed_not_rejected :
    (calculate_probabilities cfgBad []).map (fun b => (dget? b "stock_t1").map dsum)
      = some (some 2) ∧
    (calculate_probabilities cfgBad []).bind (fun b => get_deal_value b cfgBad idUx)
      = some (("ETH", "ETH"), 212201/50) :=
  ⟨by decide, by decide⟩

/-- C4 (amended): no validation is performed: a missing group yields a
silently empty extracted distribution, and computation on a malformed
configuration proceeds to produce results. -/
theorem C4_no_validation :
    get_probas "STOCKMARKET_T1" cfgNoGroup = [] ∧
    ((calculate_probabilities cfgBad []).bind (fun b => get_deal_value b cfgBad idUx)).isSome
      = true :=
  ⟨by decide, by decide⟩

/-- C2 counterexample: cfgB satisfies the claim hypotheses (all five
categorical groups sum to 1, all magnitude splits lie in [0, 1]), yet the
bundle distribution ma_t1 sums to 9999/10000, farther from 1 than the claimed
1e-6 tolerance, because each market-adoption marginal is rounded to 4
decimals. -/
theorem C2_tolerance_violation :
    dsum (get_probas "STOCKMARKET_T1" cfgB) = 1 ∧
    dsum (get_probas "STOCKMARKET_T2" cfgB) = 1 ∧
    dsum (get_probas "REG" cfgB) = 1 ∧
    dsum (get_probas "PUBLIC_PERCEPTION" cfgB) = 1 ∧
    dsum (get_probas "TECHNOLOGY" cfgB) = 1 ∧
    (dget? cfgB.entries "BTC__mag1" = some (7/10) ∧
     dget? cfgB.entries "ETH__mag1" = some (1/2) ∧
     dget? cfgB.entries "SOL__mag1" = some (3/5)) ∧
    (calculate_probabilities cfgB []).map (fun b => (dget? b "ma_t1").map dsum)
      = some (some (9999/10000)) ∧
    ¬(|(9999/10000 : ℚ) - 1| ≤ 1/1000000) := by
  refine ⟨by decide, by decide, by decide, by decide, by decide,
    ⟨by decide, by decide, by decide⟩, by decide, ?_⟩
  rw [abs_le]
  norm_num

/-- C1 counterexample: cfgA satisfies the claim hypotheses (all categorical
groups sum to 1), yet clairvoyance on ma_t1 with plain expected-value
utilities returns a clairvoyance delta of -2256.25: forcing ma_t1 also forces
the carried-forward ma_t2, so the hypothetical worlds correlate the two
epochs, and with anti-correlated stock markets the informed value falls below
the baseline optimum. -/
theorem C1_negative_delta_ma_t1 :
    dsum (get_probas "STOCKMARKET_T1" cfgA) = 1 ∧
    dsum (get_probas "STOCKMARKET_T2" cfgA) = 1 ∧
    dsum (get_probas "REG" cfgA) = 1 ∧
    dsum (get_probas "PUBLIC_PERCEPTION" cfgA) = 1 ∧
    dsum (get_probas "TECHNOLOGY" cfgA) = 1 ∧
    ((calculate_probabilities cfgA []).bind (fun b => clairvoyance "ma_t1" b cfgA idUx)).map
      (fun r => r.cv_value_with_delta) = some (-9025/4) ∧
    (-9025/4 : ℚ) < -2000 := by
  refine ⟨by decide, by decide, by decide, by decide, by decide, ?_, by norm_num⟩
  decide


/-- The bundle produced by calculate_probabilities on cfgA with ma_t1 forced low. -/
def c6bundle : Bundle :=
  [("stock_t1", [("low", 1), ("neutral", 0), ("high", 0)]),
   ("stock_t2", [("low", 0), ("neutral", 0), ("high", 1)]),
   ("reg", [("negative", 1/5), ("neutral", 1/2), ("positive", 3/10)]),
   ("public_perception", [("negative", 1/2), ("neutral", 0), ("positive", 1/2)]),
   ("technology", [("negative", 1/5), ("neutral", 1/2), ("positive", 3/10)]),
   ("ma_t1", [("low", 1), ("neutral", 0), ("high", 0)]),
   ("ma_t2", [("low", 1), ("neutral", 0), ("high", 0)]),
   ("BTC_t1", [("low_low", 1), ("low", 0), ("neutral", 0), ("high", 0), ("high_high", 0)]),
   ("BTC_t2", [("low_low", 0), ("low", 0), ("neutral", 1/2), ("high", 1/2), ("high_high", 0)]),
   ("ETH_t1", [("low_low", 1), ("low", 0), ("neutral", 0), ("high", 0), ("high_high", 0)]),
   ("ETH_t2", [("low_low", 0), ("low", 0), ("neutral", 1/2), ("high", 1/2), ("high_high", 0)]),
   ("SOL_t1", [("low_low", 1), ("low", 0), ("neutral", 0), ("high", 0), ("high_high", 0)]),
   ("SOL_t2", [("low_low", 0), ("low", 0), ("neutral", 1/2), ("high", 1/2), ("high_high", 0)])]

/-- Witness for C6 at cfgA with the single override forcing ma_t1 to low. -/
theorem C6_witness :
    calculate_probabilities cfgA [("ma_t1", ma3 1 0 0)] = some c6bundle ∧
    (c6bundle.map Prod.fst = keys13 ∧
     ∀ nm ∈ keys13, ∀ D : Dist, dget? [("ma_t1", ma3 1 0 0)] nm = some D →
       dget? c6bundle nm = some D) :=
  ⟨by decide, C6_bundle_keys_and_overrides cfgA [("ma_t1", ma3 1 0 0)] c6bundle (by decide)⟩


def c8pX : Dist := [("low", 1), ("neutral", 0), ("high", 0)]

def c8bv (o : String) : (String × String) × ℚ :=
  ((calculate_probabilities cfgA
      (dinsert [] "stock_t1" (dinsert (c8pX.map fun kv2 => (kv2.1, (0 : ℚ))) o 1))).bind
    (fun hyp => get_deal_value hyp cfgA idUx)).getD (("CASH", "CASH"), 0)

def c8base : (String × String) × ℚ :=
  (get_deal_value c6bundle cfgA idUx).getD (("CASH", "CASH"), 0)

/-- Witness for C5 on the concrete bundle c6bundle with cfgA and the identity utility pair. -/
theorem C5_witness :
    (∀ d ∈ optionsList, (get_return d c6bundle cfgA idUx).map Prod.fst =
        some (((get_return d c6bundle cfgA idUx).map Prod.fst).getD 0)) ∧
    ∃ rows, get_all_returns c6bundle cfgA idUx = some rows ∧
      rows.length = 16 ∧
      List.Perm rows (optionsList.map fun d =>
        (d, ((get_return d c6bundle cfgA idUx).map Prod.fst).getD 0)) ∧
      List.Pairwise (fun a b : (String × String) × ℚ => b.2 ≤ a.2) rows ∧
      get_deal_value c6bundle cfgA idUx = rows.head? :=
  ⟨by decide, C5_sixteen_sorted_top c6bundle cfgA idUx
     (fun d => ((get_return d c6bundle cfgA idUx).map Prod.fst).getD 0) (by decide)⟩

/-- Witness for C8 forcing stock_t1 on the concrete bundle c6bundle with cfgA and the identity utility pair. -/
theorem C8_witness :
    (dget? c6bundle "stock_t1" = some c8pX ∧
     (c8pX.map Prod.fst).Nodup ∧
     (∀ kv ∈ c8pX,
       (calculate_probabilities cfgA
           (dinsert [] "stock_t1" (dinsert (c8pX.map fun kv2 => (kv2.1, (0 : ℚ))) kv.1 1))).bind
         (fun hyp => get_deal_value hyp cfgA idUx) = some (c8bv kv.1)) ∧
     get_deal_value c6bundle cfgA idUx = some c8base) ∧
    ∃ r, clairvoyance "stock_t1" c6bundle cfgA idUx = some r ∧
      r.deal_value_free_cv = (c8pX.map fun kv => kv.2 * (c8bv kv.1).2).sum ∧
      r.cv_value_with_delta = (c8pX.map fun kv => kv.2 * (c8bv kv.1).2).sum - c8base.2 :=
  ⟨⟨by decide, by decide, by decide, by decide⟩,
   C8_free_cv_weighted_sum "stock_t1" c6bundle cfgA idUx c8pX c8bv c8base
     (by decide) (by decide) (by decide) (by decide)⟩

/-- Witness for C2 (amended) at the well-formed configuration cfgB. -/
theorem C2_witness :
    get_probas "STOCKMARKET_T1" cfgB = stock3 (3/10) (2/5) (3/10) ∧
    ∃ bun, calculate_probabilities cfgB [] = some bun ∧
      ∀ kv ∈ bun, (∀ e ∈ kv.2, 0 ≤ e.2) ∧ |dsum kv.2 - 1| ≤ 3/20000 :=
  ⟨by decide, C2_nonneg_sum_amended cfgB (3/10) (2/5) (3/10) (3/10) (2/5) (3/10)
    (1/5) (1/2) (3/10) (5557/50000) (11111/25000) (22221/50000) (1/5) (1/2) (3/10)
    1 0 0 (7/10) (1/2) (3/5)
    (by decide) (by decide) (by decide) (by decide) (by decide) (by decide)
    (by decide) (by decide) (by decide)
    (by norm_num) (by norm_num) (by norm_num) (by norm_num)
    (by norm_num) (by norm_num) (by norm_num) (by norm_num)
    (by norm_num) (by norm_num) (by norm_num) (by norm_num)
    (by norm_num) (by norm_num) (by norm_num) (by norm_num)
    (by norm_num) (by norm_num) (by norm_num) (by norm_num)
    (by norm_num) (by norm_num) (by norm_num) (by norm_num)
    (by norm_num) (by norm_num) (by norm_num) (by norm_num)
    (by norm_num) (by norm_num)⟩

end DTree
